import Mathlib

/-!
# Verification of the News-temperature pipeline specification

Shallow embedding, in Lean 4, of the core logic of the
`parkwoobin/News_temperature` repository:

* `src/crawl_naver_api.py` — text cleaner, summarizer fallback,
  language filter, result sorting, query guards;
* `src/sentiment_analyzer.py` — sentiment scoring.

Strings are modelled as `List Char` (Python `str` is a sequence of code
points, as is Lean's `String.data`).  Python floats are modelled as exact
rationals (`ℚ`); the claims under study do not probe IEEE rounding at the
decision thresholds.  Python's `re` operations are modelled by a small
regular-expression engine over character classes; for every pattern used
by this code base, Python's leftmost/greedy match extent coincides with
the leftmost, longest match computed here.  External collaborators
(HTTP, the classifier, the OpenAI API) are modelled as oracle functions
supplied as parameters, with `Except`/`Option` results standing for
Python exceptions / `None`.
-/

namespace NewsTemp

/-! ## Python string basics -/

/-- The whitespace characters stripped by Python's `str.strip()`
(ASCII portion; the texts in play contain no exotic Unicode spaces). -/
def pyIsSpace (c : Char) : Bool :=
  c = ' ' || c = '\t' || c = '\n' || c = '\r' || c = '\x0b' || c = '\x0c'

/-- Python `str.strip()`. -/
def pyStrip (l : List Char) : List Char :=
  ((l.dropWhile pyIsSpace).reverse.dropWhile pyIsSpace).reverse

/-- Python `str.split('\n')`. -/
def splitNL : List Char → List (List Char)
  | [] => [[]]
  | c :: rest =>
    match splitNL rest, decide (c = '\n') with
    | r, true => [] :: r
    | [], false => [[c]]
    | h :: t, false => (c :: h) :: t

/-- Python `'\n'.join(...)`. -/
def joinNL : List (List Char) → List Char
  | [] => []
  | [l] => l
  | l :: l2 :: ls => l ++ '\n' :: joinNL (l2 :: ls)

/-- `needle` occurs at the start of `hay`. -/
def startsWithL : List Char → List Char → Bool
  | [], _ => true
  | _ :: _, [] => false
  | n :: ns, h :: hs => n = h && startsWithL ns hs

/-- Python's substring test `needle in hay`. -/
def containsSub (needle : List Char) : List Char → Bool
  | [] => startsWithL needle []
  | c :: rest => startsWithL needle (c :: rest) || containsSub needle rest

/-- Python `str.lower()` (ASCII letters; Korean characters are unchanged). -/
def pyLower (l : List Char) : List Char := l.map Char.toLower

/-- Tail form of `pyLen`; matching on the accumulator keeps it a numeral
at every step, so evaluation runs in constant stack depth even on long
texts. -/
def pyLenGo : List Char → Nat → Nat
  | [], n => n
  | _ :: rest, 0 => pyLenGo rest 1
  | _ :: rest, n + 1 => pyLenGo rest (n + 2)

/-- Python `len(s)`. -/
def pyLen (l : List Char) : Nat := pyLenGo l 0

/-- Helper for `countWords`: `inWord` records whether the previous
character belonged to a word. -/
def countWordsAux (inWord : Bool) : List Char → Nat
  | [] => 0
  | c :: rest =>
    if pyIsSpace c then countWordsAux false rest
    else (if inWord then 0 else 1) + countWordsAux true rest

/-- Number of whitespace-separated words, as in Python `len(s.split())`. -/
def countWords (l : List Char) : Nat := countWordsAux false l

/-! ## A small regular-expression engine

Enough of Python `re` for the patterns of this code base: character
classes, concatenation, alternation, and Kleene star over a character
class.  Counted repetitions `{n,}` and `+`/`?` are expanded into this
core.  `matchEnds r l` is the set of lengths of prefixes of `l` matched
by `r`. -/

inductive RE where
  | eps : RE
  | cls : (Char → Bool) → RE
  | seq : RE → RE → RE
  | alt : RE → RE → RE
  | cstar : (Char → Bool) → RE

/-- Length of the leading run of characters satisfying `p`. -/
def runLen (p : Char → Bool) : List Char → Nat
  | [] => 0
  | c :: rest => if p c then runLen p rest + 1 else 0

/-- All lengths of prefixes of `l` matched by `r`. -/
def matchEnds : RE → List Char → List Nat
  | .eps, _ => [0]
  | .cls _, [] => []
  | .cls p, c :: _ => if p c then [1] else []
  | .cstar p, l => List.range (runLen p l + 1)
  | .seq a b, l =>
    ((matchEnds a l).flatMap fun k =>
      (matchEnds b (l.drop k)).map (k + ·)).dedup
  | .alt a b, l => ((matchEnds a l) ++ (matchEnds b l)).dedup

/-- `re.match(r, l)` viewed as a Boolean: some prefix of `l` matches. -/
def reMatch (r : RE) (l : List Char) : Bool :=
  matchEnds r l ≠ []

/-- `re.search(r, l)` viewed as a Boolean. -/
def reSearch (r : RE) : List Char → Bool
  | [] => reMatch r []
  | c :: rest => reMatch r (c :: rest) || reSearch r rest

/-- A full match of `l` against `r` (used for `^...$` patterns on a
single line). -/
def reFull (r : RE) (l : List Char) : Bool :=
  (matchEnds r l).contains l.length

/-- The longest match length at this position (0 when there is none;
every substitution pattern in this code base matches at least one
character, so 0 unambiguously means "no match"). -/
def maxEnd (l : List Nat) : Nat := l.foldr max 0

/-- `re.sub(r, repl, ·)` with constant replacement, scanning left to
right and resuming after each replaced (non-empty) match.  `fuel` is an
upper bound on the number of steps; `l.length` always suffices. -/
def reSubGo (r : RE) (repl : List Char) : Nat → List Char → List Char
  | 0, l => l
  | _ + 1, [] => []
  | fuel + 1, c :: rest =>
    let m := maxEnd (matchEnds r (c :: rest))
    if m = 0 then c :: reSubGo r repl fuel rest
    else repl ++ reSubGo r repl fuel ((c :: rest).drop m)

def reSub (r : RE) (repl : List Char) (l : List Char) : List Char :=
  reSubGo r repl l.length l

/-- `r` can match the empty string. -/
def nullable : RE → Bool
  | .eps => true
  | .cls _ => false
  | .cstar _ => true
  | .seq a b => nullable a && nullable b
  | .alt a b => nullable a || nullable b

/-- `r` can match a non-empty prefix whose first character is `c`. -/
def canStart : RE → Char → Bool
  | .eps, _ => false
  | .cls p, c => p c
  | .cstar p, c => p c
  | .seq a b, c => canStart a c || (nullable a && canStart b c)
  | .alt a b, c => canStart a c || canStart b c

/-- A lower bound on the length of any match of `r`. -/
def reMinLen : RE → Nat
  | .eps => 0
  | .cls _ => 1
  | .cstar _ => 0
  | .seq a b => reMinLen a + reMinLen b
  | .alt a b => min (reMinLen a) (reMinLen b)

/-! ### Pattern-building helpers -/

/-- Literal character. -/
def chr (c : Char) : RE := .cls (· = c)

/-- Case-insensitive literal character (Python `re.IGNORECASE`). -/
def chrI (c : Char) : RE := .cls (fun x => x.toLower = c.toLower)

/-- Literal string. -/
def lit (s : String) : RE := s.data.foldr (fun c r => .seq (chr c) r) .eps

/-- Case-insensitive literal string. -/
def litI (s : String) : RE := s.data.foldr (fun c r => .seq (chrI c) r) .eps

/-- `r?`. -/
def opt (r : RE) : RE := .alt .eps r

/-- `p+` for a character class. -/
def plus (p : Char → Bool) : RE := .seq (.cls p) (.cstar p)

/-- `p{n,}` for a character class. -/
def repAtLeast (p : Char → Bool) : Nat → RE
  | 0 => .cstar p
  | n + 1 => .seq (.cls p) (repAtLeast p n)

/-- Alternation of a list of regexes. -/
def altL : List RE → RE
  | [] => .cls (fun _ => false)
  | [r] => r
  | r :: r2 :: rs => .alt r (altL (r2 :: rs))

/-- Concatenation of a list of regexes. -/
def seqL : List RE → RE
  | [] => .eps
  | [r] => r
  | r :: r2 :: rs => .seq r (seqL (r2 :: rs))

/-! ### Character classes used by the source patterns -/

/-- `[가-힣]` — Hangul syllables. -/
def isHangulSyl (c : Char) : Bool := 0xAC00 ≤ c.val && c.val ≤ 0xD7A3

/-- `[a-zA-Z]`. -/
def isLatin (c : Char) : Bool :=
  ('a' ≤ c && c ≤ 'z') || ('A' ≤ c && c ≤ 'Z')

/-- `[0-9]`. -/
def isDigitCh (c : Char) : Bool := '0' ≤ c && c ≤ '9'

/-- Python `\s` (ASCII portion). -/
def clsSpace (c : Char) : Bool := pyIsSpace c

/-- Python `\S`. -/
def clsNonSpace (c : Char) : Bool := !pyIsSpace c

/-- `.` — any character but a newline. -/
def clsDot (c : Char) : Bool := c ≠ '\n'

/-- `[가-힣a-zA-Z\s]`. -/
def clsHanLatSp (c : Char) : Bool := isHangulSyl c || isLatin c || pyIsSpace c

/-- Python `\w` for the relevant alphabets (used for `\b` boundaries). -/
def isWordCh (c : Char) : Bool :=
  isLatin c || isDigitCh c || c = '_' || isHangulSyl c ||
    (0x3131 ≤ c.val && c.val ≤ 0x318E)

/-- `\s*`. -/
def ws : RE := .cstar clsSpace

/-- `.*`. -/
def dotStar : RE := .cstar clsDot

/-! ## `NaverNewsAPICrawler._fallback_summarize`

`crawl_naver_api.py`, lines 1081–1131.  Python `str.rfind` returns the
last index of the character, or `-1`. -/

/-- Helper for `rfindCh`: `i` is the index of the head of the list. -/
def rfindGo (c : Char) : List Char → Nat → Int
  | [], _ => -1
  | x :: rest, i =>
    let r := rfindGo c rest (i + 1)
    if r ≥ 0 then r else if x = c then (i : Int) else -1

/-- Python `s.rfind(c)` for a single-character needle. -/
def rfindCh (l : List Char) (c : Char) : Int := rfindGo c l 0

/-- `max(s.rfind('.'), s.rfind('!'), s.rfind('?'), s.rfind('。'),
s.rfind('！'), s.rfind('？'))` as in the source. -/
def lastPunctIdx (s : List Char) : Int :=
  max (rfindCh s '.')
    (max (rfindCh s '!')
      (max (rfindCh s '?')
        (max (rfindCh s '。') (max (rfindCh s '！') (rfindCh s '？')))))

/-- The ellipsis marker `'...'` appended by the source. -/
def ellipsis : List Char := ['.', '.', '.']

/-- Lines 1113–1126 of `_fallback_summarize`: completion after cutting
at the last whitespace (`summary2 = summary[:last_space]`). -/
def fallback_space (summary2 : List Char) : List Char :=
  if (lastPunctIdx summary2 : ℚ) > (summary2.length : ℚ) * (1 / 2) then
    summary2.take ((lastPunctIdx summary2).toNat + 1)
  else summary2 ++ ellipsis

/-- Lines 1094–1129 of `_fallback_summarize`: completion logic for the
truncated `summary = text[:max_length]`. -/
def fallback_inner (summary : List Char) (maxLength : Nat) : List Char :=
  if (lastPunctIdx summary : ℚ) > (maxLength : ℚ) * (1 / 2) then
    summary.take ((lastPunctIdx summary).toNat + 1)
  else if (rfindCh summary ' ' : ℚ) > (maxLength : ℚ) * (7 / 10) then
    fallback_space (summary.take (rfindCh summary ' ').toNat)
  else summary ++ ellipsis

/-- `_fallback_summarize(text, max_length)`.  The threshold comparisons
`last_punct > max_length * 0.5` etc. are modelled in exact arithmetic. -/
def fallback_summarize (text0 : List Char) (maxLength : Nat) : List Char :=
  if (pyStrip text0).length ≤ maxLength then pyStrip text0
  else fallback_inner ((pyStrip text0).take maxLength) maxLength

/-! ## `NaverNewsAPICrawler._is_english_article`

`crawl_naver_api.py`, lines 1602–1638. -/

/-- `english_ratio` of lines 1625–1632: Latin letters over non-space
characters, 0 when there is no non-space character. -/
def englishRatQ (content : List Char) : ℚ :=
  if (content.filter fun c => c ≠ ' ').length > 0 then
    ((content.filter isLatin).length : ℚ)
      / ((content.filter fun c => c ≠ ' ').length : ℚ)
  else 0

/-- Body of `_is_english_article` on the already-joined, stripped
content. -/
def is_english_core (content : List Char) : Bool :=
  if content.isEmpty then false
  else if reSearch (.cls isHangulSyl) content then false
  else if countWords content = 0 then false
  else if englishRatQ content > 7 / 10 && !reSearch (.cls isHangulSyl) content
    then true
  else false

/-- `_is_english_article(title, description, text)`: the content is the
f-string `f"{title} {description} {text}"`, stripped. -/
def is_english_article (title desc text : List Char) : Bool :=
  is_english_core (pyStrip (title ++ ' ' :: desc ++ ' ' :: text))

/-- The spec's words for the language filter (§4.4): an item is English
iff it contains no Korean character and the ratio of Latin letters to
non-space characters exceeds 0.7.  Stated with cross-multiplied integer
arithmetic; compared against the source-derived `is_english_article`. -/
def isEnglishSpecCore (content : List Char) : Bool :=
  (content.all fun c => !isHangulSyl c) &&
    decide (7 * (content.filter fun c => c ≠ ' ').length <
      10 * (content.filter isLatin).length)

/-- The spec's language filter on title, description and text. -/
def isEnglishSpec (title desc text : List Char) : Bool :=
  isEnglishSpecCore (pyStrip (title ++ ' ' :: desc ++ ' ' :: text))

/-! ## `NaverNewsAPICrawler.crawl_news_with_full_text` — result sorting

`crawl_naver_api.py`, lines 1525–1533.  `results.sort(key=lambda x:
x.get('view_count', 0), reverse=True)` is Python's stable sort, in
descending key order; it is embedded as insertion sort with the relation
"my key is at least yours", which is the unique stable descending
sort. -/

structure NewsItem where
  title : String
  view_count : Option Nat
  pubDate : String
deriving DecidableEq, Repr

/-- `x.get('view_count', 0)`. -/
def viewKey (x : NewsItem) : Nat := x.view_count.getD 0

/-- `a` may be placed before `b` in descending view-count order. -/
def viewOrder (a b : NewsItem) : Prop := viewKey b ≤ viewKey a

instance : DecidableRel viewOrder := fun _ _ => Nat.decLe _ _

instance : IsTotal NewsItem viewOrder :=
  ⟨fun a b => le_total (viewKey b) (viewKey a)⟩

instance : IsTrans NewsItem viewOrder :=
  ⟨fun _ _ _ hab hbc => le_trans hbc hab⟩

/-- The `sort_by == 'view'` branch. -/
def sort_results_by_view (l : List NewsItem) : List NewsItem :=
  l.insertionSort viewOrder

/-! ## `search_news` / `get_all_news` query guards

`crawl_naver_api.py`, lines 90–95 and 163–213.  The HTTP request is an
oracle; each embedded function also returns the number of requests it
issued. -/

structure SearchParams where
  query : String
  display : Nat
  start : Nat
  sortKey : String
  dateFrom : Option String
  dateTo : Option String

/-- The API response dictionary: `items`, when the key is present, and
`result.get('total', 0)`. -/
structure SearchResp (Item : Type) where
  items : Option (List Item)
  total : Nat

/-- `search_news`.  `none` from the oracle models a request error. -/
def search_news {Item : Type} (oracle : SearchParams → Option (SearchResp Item))
    (query : String) (display start : Nat) (sortKey : String)
    (dateFrom dateTo : Option String) : Option (SearchResp Item) × Nat :=
  if pyStrip query.data = [] then (none, 0)
  else
    let q : String := ⟨pyStrip query.data⟩
    let norm : Option String → Option String := fun o =>
      match o with
      | some s => if s = "" then none else some s
      | none => none
    let params : SearchParams :=
      { query := q, display := min display 100, start := start,
        sortKey := sortKey, dateFrom := norm dateFrom, dateTo := norm dateTo }
    (oracle params, 1)

/-- The pagination loop of `get_all_news`; `fuel` bounds the number of
iterations of the Python `while`. -/
def getAllNewsGo {Item : Type} (oracle : SearchParams → Option (SearchResp Item))
    (q : String) (maxResults : Nat) (sortKey : String)
    (dateFrom dateTo : Option String) :
    Nat → List Item → Nat → Nat → List Item × Nat
  | 0, allItems, _, reqs => (allItems, reqs)
  | fuel + 1, allItems, start, reqs =>
    if allItems.length < maxResults then
      match search_news oracle q 100 start sortKey dateFrom dateTo with
      | (none, n) => (allItems, reqs + n)
      | (some resp, n) =>
        match resp.items with
        | none => (allItems, reqs + n)
        | some items =>
          if items.isEmpty then (allItems, reqs + n)
          else
            let all2 := allItems ++ items
            if start + 100 > resp.total ∨ items.length < 100 then
              (all2, reqs + n)
            else
              getAllNewsGo oracle q maxResults sortKey dateFrom dateTo
                fuel all2 (start + 100) (reqs + n)
    else (allItems, reqs)

/-- `get_all_news`. -/
def get_all_news {Item : Type} (oracle : SearchParams → Option (SearchResp Item))
    (fuel : Nat) (query : String) (maxResults : Nat) (sortKey : String)
    (dateFrom dateTo : Option String) : List Item × Nat :=
  if pyStrip query.data = [] then ([], 0)
  else
    let q : String := ⟨pyStrip query.data⟩
    let r := getAllNewsGo oracle q maxResults sortKey dateFrom dateTo fuel [] 1 0
    (r.1.take maxResults, r.2)

/-! ## `SentimentAnalyzer` (`sentiment_analyzer.py`)

The OpenAI chat call, the fine-tuned model and the fallback `pipeline`
classifier are oracles.  `Except.error` / `OpenAIOut.err` stand for a
Python exception raised by (or while parsing the answer of) the
collaborator. -/

structure SentimentResult where
  label : String
  score : ℚ
  temperature : ℤ
  image_path : String
deriving DecidableEq, Repr

/-- Python `int(q)` — truncation toward zero. -/
def pyTrunc (q : ℚ) : ℤ := if 0 ≤ q then ⌊q⌋ else -⌊-q⌋

/-- `max lo (min hi x)`. -/
def clampZ (lo hi x : ℤ) : ℤ := max lo (min hi x)

/-- `max(0.0, min(1.0, q))`. -/
def clampQ01 (q : ℚ) : ℚ := max 0 (min 1 q)

/-- The fixed neutral fallback dictionary (lines 323–328 and 758–763). -/
def defaultResult : SentimentResult :=
  { label := "보통", score := 1 / 2, temperature := 50,
    image_path := "static/2.png" }

/-- The label → image mapping repeated at lines 301–307 and 613–619. -/
def imageForLabel (lab : String) : String :=
  if lab = "긍정적" then "static/3.png"
  else if lab = "부정적" then "static/1.png"
  else "static/2.png"

/-- Outcome of the OpenAI chat call, after JSON parsing and the
`.get` defaults: a label string and a score, or an exception. -/
inductive OpenAIOut where
  | ok (label : String) (score : ℚ)
  | err

/-- `_analyze_with_openai` (lines 171–272); never raises once a client
exists: both `except` handlers return `{'보통', 0.5}`. -/
def truncate3000 (text : List Char) : List Char :=
  if pyLen text > 3000 then
    text.take 2000 ++ ' ' :: text.drop (pyLen text - 1000)
  else text

def analyze_with_openai (f : List Char → OpenAIOut) (text : List Char) :
    String × ℚ :=
  let tfa := truncate3000 text
  match f tfa with
  | .ok label score =>
    let score := clampQ01 score
    let label :=
      if label = "긍정적" || label = "보통" || label = "부정적" then label
      else if score ≥ 7 / 10 then "긍정적"
      else if score ≤ 3 / 10 then "부정적"
      else "보통"
    (label, score)
  | .err => ("보통", 1 / 2)

structure Analyzer where
  use_openai : Bool
  openai_client : Option (List Char → OpenAIOut)
  use_finetuned_model : Bool
  ftModel : Option (List Char → Except Unit (ℚ × ℚ × ℚ))
  classifier : Option (List Char → Except Unit (String × ℚ))

/-! ### Keyword tables of the fine-tuned branch (lines 414–534) -/

def positive_keywords_ft : List String :=
  ["완승", "성공", "승리", "발전", "성장", "증가", "개선", "혁신", "확대", "상승",
   "향상", "도약", "기대", "긍정", "호재", "호조", "확장", "투자", "협력",
   "파트너십", "기술", "개발", "출시", "수상", "인정", "평가", "우수", "최고",
   "1위", "선두", "돌파", "기록", "최대", "최고치", "상승세", "호전", "개선세"]

def strong_negative_keywords : List String :=
  ["숨지", "사망", "사고로", "사고로 인해", "사고로 사망", "방치", "유기",
   "살인", "폭행", "강도", "강간", "성폭행", "학대", "폭력", "테러",
   "폭발", "화재", "붕괴", "추락", "충돌", "교통사고", "교통사고로",
   "사고로 숨지", "사고로 사망", "사고로 부상", "사고로 다쳐",
   "비극", "참사", "재난", "재해", "피해자", "희생자", "부상자"]

def negative_keywords_ft : List String :=
  ["감소", "하락", "위기", "문제", "사고", "부정", "부실", "실패", "폐쇄",
   "도산", "파산", "손실", "적자", "축소", "감원", "해고", "실업", "불안",
   "우려", "경고", "위험", "부상", "피해", "비리", "의혹", "논란",
   "조롱", "비난", "하락세", "악화", "쇠퇴", "후퇴", "실적부진", "부진"]

/-- A pattern of literal runs separated by `\s*`, as in the source's
`negative_patterns` regexes. -/
def litWs (segs : List String) : RE := seqL (List.intersperse ws (segs.map lit))

/-- `negative_patterns` (lines 440–534), in source order. -/
def negative_patterns : List RE :=
  [litWs ["숨지"], litWs ["사망", "했다"], litWs ["방치"], litWs ["유기"],
   litWs ["차에", "방치"], litWs ["차량에", "방치"], litWs ["차에", "남겨"],
   litWs ["차량에", "남겨"], litWs ["사고로", "숨지"], litWs ["사고로", "사망"],
   litWs ["사고로", "인해"], litWs ["교통사고"], litWs ["교통사고로"],
   litWs ["하지", "못"], litWs ["못", "했다"], litWs ["실패", "했다"],
   litWs ["보다", "낮"], litWs ["보다", "못"], litWs ["못", "미친"],
   litWs ["에", "못", "미친"], litWs ["에", "실패"], litWs ["하지", "않"],
   litWs ["없", "었다"], litWs ["없", "었음"], litWs ["없", "어"],
   litWs ["부족"], litWs ["부족", "했다"], litWs ["미달"], litWs ["미달", "했다"],
   litWs ["기대", "에", "못", "미친"], litWs ["기대", "이하"],
   litWs ["예상", "보다", "낮"], litWs ["예상", "보다", "못"],
   litWs ["전년", "대비", "감소"], litWs ["전년", "대비", "하락"],
   litWs ["전년", "대비", "줄어"], litWs ["전년", "대비", "떨어"],
   litWs ["전분기", "대비", "감소"], litWs ["전분기", "대비", "하락"],
   litWs ["목표", "에", "못", "미친"], litWs ["목표", "이하"],
   litWs ["목표", "미달"], litWs ["기록", "보다", "낮"],
   litWs ["기록", "보다", "못"], litWs ["이전", "보다", "나빠"],
   litWs ["이전", "보다", "떨어"], litWs ["이전", "보다", "줄어"],
   litWs ["에도", "불구하고"], litWs ["임에도", "불구"], litWs ["그럼에도", "불구"],
   litWs ["그러나"], litWs ["하지만"], litWs ["다만"], litWs ["아쉽게도"],
   litWs ["안타깝게도"], litWs ["유감스럽게도"], litWs ["아쉽"], litWs ["안타깝"],
   litWs ["유감"], litWs ["우려", "된다"], litWs ["우려", "가"],
   litWs ["걱정", "된다"], litWs ["걱정", "이"], litWs ["불안", "하다"],
   litWs ["불안", "감"], litWs ["위험", "하다"], litWs ["위험", "이"],
   litWs ["문제", "가", "있다"], litWs ["문제", "가", "발생"],
   litWs ["문제", "가", "나타나"], litWs ["어려움"], litWs ["어려움", "을", "겪"],
   litWs ["난관"], litWs ["난관", "에"], litWs ["장애"], litWs ["장애", "물"],
   litWs ["제약"], litWs ["제약", "이"], litWs ["한계"], litWs ["한계", "를"],
   litWs ["부족", "하다"], litWs ["부족", "한"], litWs ["부족", "함"],
   litWs ["미흡"], litWs ["미흡", "하다"], litWs ["미흡", "한"],
   litWs ["아쉬움"], litWs ["아쉬움", "을"], litWs ["아쉬운"],
   litWs ["아쉬운", "점"], litWs ["아쉬운", "부분"]]

/-! ### Keyword tables of the default-pipeline branch (lines 637–667) -/

def pos_label_keys : List String :=
  ["positive", "긍정", "5 star", "5star", "4 star", "4star"]

def neg_label_keys : List String :=
  ["negative", "부정", "1 star", "1star", "2 star", "2star"]

def positive_keywords_base : List String :=
  ["발전", "성장", "증가", "개선", "혁신", "성공", "확대", "상승",
   "향상", "도약", "기대", "긍정", "호재", "호조", "확대", "확장",
   "투자", "협력", "파트너십", "기술", "혁신", "개발", "출시",
   "수상", "인정", "평가", "우수", "최고", "1위", "선두"]

def negative_keywords_base : List String :=
  ["감소", "하락", "위기", "문제", "사고", "부정", "부실", "실패",
   "폐쇄", "도산", "파산", "손실", "적자", "감소", "축소", "감원",
   "해고", "실업", "불안", "우려", "경고", "위험", "사고", "사망",
   "부상", "피해", "손실", "비리", "부정", "비리", "의혹", "논란",
   "조롱", "비난"]

/-- `sum(1 for keyword in keys if keyword in hay)`. -/
def countContains (keys : List String) (hay : List Char) : Nat :=
  (keys.filter fun k => containsSub k.data hay).length

/-- Number of regexes of `pats` with a match in `hay`. -/
def countSearch (pats : List RE) (hay : List Char) : Nat :=
  (pats.filter fun r => reSearch r hay).length

/-! ### The fine-tuned branch (lines 341–629) -/

/-- `torch.argmax` over the three class probabilities (first maximal
index). -/
def argmax3 (pn pu pp : ℚ) : Nat :=
  if pn ≥ pu ∧ pn ≥ pp then 0 else if pu ≥ pp then 1 else 2

/-- `label_map = {0: '부정적', 1: '보통', 2: '긍정적'}` with default
`'보통'`. -/
def labelMap (i : Nat) : String :=
  if i = 0 then "부정적" else if i = 2 then "긍정적" else "보통"

def ft_positive_count (tl : List Char) : Nat := countContains positive_keywords_ft tl

def ft_negative_count_raw (tl : List Char) : Nat := countContains negative_keywords_ft tl

def ft_strong_count (tl : List Char) : Nat := countContains strong_negative_keywords tl

def ft_context_count (tl : List Char) : Nat := countSearch negative_patterns tl

/-- Score forced by the strong-negative override (line 568):
`max(0.0, 0.2 - strong_negative_count * 0.1)`. -/
def ftStrongScore (c : Nat) : ℚ := max 0 (1 / 5 - (c : ℚ) * (1 / 10))

/-- The result returned by the strong-negative override (lines 563–577).
Note the temperature cap at 20. -/
def ftStrongResult (c : Nat) : SentimentResult :=
  { label := "부정적", score := ftStrongScore c,
    temperature := clampZ 0 20 (pyTrunc (ftStrongScore c * 100)),
    image_path := "static/1.png" }

/-- `keyword_bias` (lines 581–589): the negative branch overwrites the
positive one. -/
def ftKeywordBias (pos neg ctx : Nat) : ℚ :=
  let b1 : ℚ := if pos > 0 then min (2 / 5) ((pos : ℚ) * (1 / 10)) else 0
  if neg > 0 then
    if ctx > 0 then max (-(2 / 5)) (-((neg : ℚ) * (12 / 100)))
    else max (-(3 / 10)) (-((neg : ℚ) * (1 / 10)))
  else b1

/-- Final (label, adjusted-score) decision of the fine-tuned branch
(lines 596–619). -/
def ftDecide (adjusted : ℚ) (pos neg : Nat) (modelLabel : String) :
    String × ℚ :=
  if adjusted ≥ 65 / 100 then ("긍정적", adjusted)
  else if adjusted ≤ 35 / 100 then ("부정적", adjusted)
  else if pos ≥ 2 ∧ pos > neg then ("긍정적", min 1 (65 / 100 + (pos : ℚ) * (1 / 10)))
  else if neg ≥ 2 ∧ neg > pos then ("부정적", max 0 (35 / 100 - (neg : ℚ) * (1 / 10)))
  else (modelLabel, adjusted)

/-- Lines 332–337: `text[:1500] + " " + text[-500:]` for texts over
2000 characters. -/
def truncate2000 (text : List Char) : List Char :=
  if pyLen text > 2000 then
    text.take 1500 ++ ' ' :: text.drop (pyLen text - 500)
  else text

/-- The fine-tuned-model branch of `analyze`, given the class
probabilities.  The returned `score` field is the UNadjusted base score
(line 748), while the temperature is computed from the adjusted score
(line 622). -/
def finetuned_branch (pn pu pp : ℚ) (tfa : List Char) : SentimentResult :=
  let score := clampQ01 (1 / 2 + (pp - pn) * (1 / 2))
  let label := labelMap (argmax3 pn pu pp)
  let tl := pyLower tfa
  let pos := ft_positive_count tl
  let negRaw := ft_negative_count_raw tl
  let strong := ft_strong_count tl
  let ctx := ft_context_count tl
  let neg := if ctx > 0 then negRaw + ctx else negRaw
  if strong > 0 then ftStrongResult strong
  else
    let bias := ftKeywordBias pos neg ctx
    let adjusted := clampQ01 (score + bias)
    let dec := ftDecide adjusted pos neg label
    { label := dec.1, score := score,
      temperature := clampZ 0 100 (pyTrunc (dec.2 * 100)),
      image_path := imageForLabel dec.1 }

/-- The default-pipeline branch of `analyze` (lines 630–733), given the
classifier's raw label and score.  Temperature is `int(score * 100)`
(line 733) from the RAW score; neutral middles map to `'temp/2.png'`
(lines 693 and 705). -/
def base_branch (lab : String) (sc : ℚ) (tfa : List Char) : SentimentResult :=
  let labelLower := pyLower lab.data
  let isPos := pos_label_keys.any fun k => containsSub k.data labelLower
  let isNeg := neg_label_keys.any fun k => containsSub k.data labelLower
  let tl := pyLower tfa
  let pos := countContains positive_keywords_base tl
  let neg := countContains negative_keywords_base tl
  let b1 : ℚ := if pos > 0 then min (3 / 10) ((pos : ℚ) * (1 / 10)) else 0
  let bias : ℚ := if neg > 0 then max (-(3 / 10)) (-((neg : ℚ) * (1 / 10))) else b1
  let si : String × String :=
    if isPos then
      let adj := min 1 (sc + bias)
      if adj ≥ 7 / 10 then ("긍정적", "static/3.png")
      else if adj ≤ 3 / 10 then ("부정적", "static/1.png")
      else ("보통", "temp/2.png")
    else if isNeg then
      let adj := max 0 (sc - |bias|)
      if adj ≤ 3 / 10 then ("부정적", "static/1.png")
      else if adj ≥ 7 / 10 then ("긍정적", "static/3.png")
      else ("보통", "temp/2.png")
    else
      let fs := sc + bias
      if pos > neg ∧ pos > 2 then ("긍정적", "static/3.png")
      else if neg > pos ∧ neg > 0 then ("부정적", "static/1.png")
      else if fs ≥ 7 / 10 then ("긍정적", "static/3.png")
      else if fs ≤ 3 / 10 then ("부정적", "static/1.png")
      else ("보통", "static/2.png")
  { label := si.1, score := sc,
    temperature := clampZ 0 100 (pyTrunc (sc * 100)),
    image_path := si.2 }

/-- `SentimentAnalyzer.analyze` (lines 274–763). -/
def analyze (a : Analyzer) (text : List Char) : SentimentResult :=
  match (if a.use_openai then a.openai_client else none) with
  | some f =>
    let r := analyze_with_openai f text
    { label := r.1, score := r.2,
      temperature := clampZ 0 100 (pyTrunc (r.2 * 100)),
      image_path := imageForLabel r.1 }
  | none =>
    if a.classifier.isNone && !a.use_finetuned_model then defaultResult
    else
      let tfa := truncate2000 text
      if a.use_finetuned_model && a.ftModel.isSome then
        match a.ftModel with
        | some m =>
          match m tfa with
          | .ok p => finetuned_branch p.1 p.2.1 p.2.2 tfa
          | .error _ => defaultResult
        | none => defaultResult
      else
        -- the `else` of line 389: `self.classifier(...)` — calling a
        -- `None` classifier raises and lands in the handler at line 753
        match a.classifier with
        | some f =>
          match f tfa with
          | .ok r => base_branch r.1 r.2 tfa
          | .error _ => defaultResult
        | none => defaultResult

/-- For each branch of `analyze`, the score from which the returned
temperature is computed (`int(s * 100)`, clamped).  In the fine-tuned
keyword branch this is the adjusted score, not the returned `score`
field. -/
def temp_basis (a : Analyzer) (text : List Char) : ℚ :=
  match (if a.use_openai then a.openai_client else none) with
  | some f => (analyze_with_openai f text).2
  | none =>
    if a.classifier.isNone && !a.use_finetuned_model then 1 / 2
    else
      let tfa := truncate2000 text
      if a.use_finetuned_model && a.ftModel.isSome then
        match a.ftModel with
        | some m =>
          match m tfa with
          | .ok p =>
            let pn := p.1; let pp := p.2.2
            let score := clampQ01 (1 / 2 + (pp - pn) * (1 / 2))
            let label := labelMap (argmax3 pn p.2.1 pp)
            let tl := pyLower tfa
            let pos := ft_positive_count tl
            let negRaw := ft_negative_count_raw tl
            let strong := ft_strong_count tl
            let ctx := ft_context_count tl
            let neg := if ctx > 0 then negRaw + ctx else negRaw
            if strong > 0 then ftStrongScore strong
            else
              let bias := ftKeywordBias pos neg ctx
              (ftDecide (clampQ01 (score + bias)) pos neg label).2
          | .error _ => 1 / 2
        | none => 1 / 2
      else
        match a.classifier with
        | some f =>
          match f tfa with
          | .ok r => r.2
          | .error _ => 1 / 2
        | none => 1 / 2

/-- A 2009-character article whose only strong-negative phrase sits
strictly inside the region dropped by the `text[:1500] + " " +
text[-500:]` truncation. -/
def c3BigText : List Char :=
  List.replicate 1500 '가' ++ ("교통사고로 숨졌다".data ++ List.replicate 500 '가')

/-! ## `NaverNewsAPICrawler._clean_article_text` (crawl_naver_api.py 719–1018)

Conventions: `re.match` is `reMatch` (the leading `^` of a pattern is
implicit there); `re.search` of a `^`-anchored pattern is likewise
`reMatch`; `$` on a newline-free line is expressed with `reFull`;
`re.IGNORECASE` is rendered with `litI` on Latin literals and is vacuous
on Hangul; Python `\s` is `clsSpace` and `[^\n]` coincides with `.`
(`clsDot`).  `re.sub` replaces, at each leftmost match position, the
longest match there; on the deterministic patterns below this agrees
with Python's greedy backtracking. -/

/-- `[=:]`. -/
def eqColon : RE := .cls (fun c => c = '=' || c = ':')

/-- `#\S+` (line 728). -/
def reHash : RE := .seq (chr '#') (plus clsNonSpace)

/-- `사진\s*[=:]\s*[가-힣a-zA-Z\s]+` and the 그림/표 variants
(lines 731–733). -/
def reCap (word : String) : RE :=
  seqL [lit word, ws, eqColon, ws, plus clsHanLatSp]

/-- `.*X` for a literal `X`, the building block of the byline skip
patterns. -/
def dsT (s : String) : List RE := [dotStar, lit s]

/-- `.*=`. -/
def dsEq : List RE := [dotStar, chr '=']

/-- The 55 `skip_patterns` (lines 739–795) in source order; they are
used with `re.match`, so each leading `^` is implicit. -/
def skip_patterns : List RE :=
  [ seqL [chr '[', lit "사진", eqColon],
    seqL [chr '[', lit "그림", eqColon],
    seqL [chr '[', lit "표", eqColon],
    seqL [chr '[', lit "캡션", eqColon],
    seqL [chr '[', dotStar, lit "사진", dotStar, chr ']'],
    seqL [chr '[', dotStar, lit "그림", dotStar, chr ']'],
    seqL [chr '[', dotStar, lit "표", dotStar, chr ']'],
    seqL [chr '[', dotStar, lit "캡션", dotStar, chr ']'],
    seqL [lit "관련", ws, lit "기사"],
    lit "댓글",
    seqL [lit "기자", ws, eqColon],
    lit "제보",
    litI "Copyright",
    chr '©',
    seqL [lit "무단", ws, lit "전재"],
    seqL [lit "재배포", ws, lit "금지"],
    seqL [lit "기사", ws, lit "제보"],
    seqL [lit "이", ws, lit "기사"],
    seqL [lit "기사", ws, lit "내용"],
    seqL [chr '[', dotStar, lit "기자", dotStar, chr ']'],
    seqL [dotStar, chr '@', dotStar, chr '.', altL [litI "com", litI "kr", litI "net"]],
    seqL (dsT "기자" ++ dsEq),
    seqL (dsT "특파원" ++ dsEq),
    seqL (dsT "인턴기자" ++ dsEq),
    seqL (dsT "기자" ++ dsT "기자"),
    seqL (dsT "기자" ++ dsT "특파원"),
    seqL (dsT "기자" ++ dsT "인턴"),
    seqL (dsT "기자" ++ dsEq ++ dsT "기자"),
    seqL (dsT "기자" ++ dsEq ++ dsT "특파원"),
    seqL (dsT "기자" ++ dsEq ++ dsT "인턴"),
    seqL (dsT "기자" ++ dsEq ++ dsEq),
    seqL (dsT "기자" ++ dsT "기자" ++ dsEq),
    seqL (dsT "기자" ++ dsT "특파원" ++ dsEq),
    seqL (dsT "기자" ++ dsT "인턴" ++ dsEq),
    seqL (dsT "기자" ++ dsEq ++ dsEq ++ dsT "기자"),
    seqL (dsT "기자" ++ dsEq ++ dsEq ++ dsT "특파원"),
    seqL (dsT "기자" ++ dsEq ++ dsEq ++ dsT "인턴"),
    seqL (dsT "기자" ++ dsEq ++ dsEq ++ dsEq),
    seqL (dsT "기자" ++ dsT "기자" ++ dsEq ++ dsEq),
    seqL (dsT "기자" ++ dsT "특파원" ++ dsEq ++ dsEq),
    seqL (dsT "기자" ++ dsT "인턴" ++ dsEq ++ dsEq),
    seqL (dsT "기자" ++ dsEq ++ dsEq ++ dsEq ++ dsT "기자"),
    seqL (dsT "기자" ++ dsEq ++ dsEq ++ dsEq ++ dsT "특파원"),
    seqL (dsT "기자" ++ dsEq ++ dsEq ++ dsEq ++ dsT "인턴"),
    seqL (dsT "기자" ++ dsEq ++ dsEq ++ dsEq ++ dsEq),
    seqL (dsT "기자" ++ dsT "기자" ++ dsEq ++ dsEq ++ dsEq),
    seqL (dsT "기자" ++ dsT "특파원" ++ dsEq ++ dsEq ++ dsEq),
    seqL (dsT "기자" ++ dsT "인턴" ++ dsEq ++ dsEq ++ dsEq),
    seqL (dsT "기자" ++ dsEq ++ dsEq ++ dsEq ++ dsEq ++ dsT "기자"),
    seqL (dsT "기자" ++ dsEq ++ dsEq ++ dsEq ++ dsEq ++ dsT "특파원"),
    seqL (dsT "기자" ++ dsEq ++ dsEq ++ dsEq ++ dsEq ++ dsT "인턴"),
    seqL (dsT "기자" ++ dsEq ++ dsEq ++ dsEq ++ dsEq ++ dsEq),
    seqL (dsT "기자" ++ dsT "기자" ++ dsEq ++ dsEq ++ dsEq ++ dsEq),
    seqL (dsT "기자" ++ dsT "특파원" ++ dsEq ++ dsEq ++ dsEq ++ dsEq),
    seqL (dsT "기자" ++ dsT "인턴" ++ dsEq ++ dsEq ++ dsEq ++ dsEq) ]

/-- The 48 `skip_keywords` (lines 798–847), tested with Python's `in`
(case-sensitive substring). -/
def skip_keywords : List String :=
  ["본문 요약", "현재위치", "지자체", "기자명", "입력", "바로가기", "복사하기",
   "본문 글씨", "글씨 줄이기", "글씨 키우기", "SNS", "페이스북", "트위터",
   "URL복사", "기사보내기", "공유하기", "관련 기사", "관련기사", "관련사진",
   "관련사진보기", "관련기사보기", "관련영상", "관련영상보기", "추천 기사",
   "추천기사", "추천기사보기", "댓글", "댓글보기", "좋아요", "더보기", "전체보기",
   "기자 =", "기자=", "특파원 =", "특파원=", "인턴기자 =", "인턴기자=",
   "Copyright", "©", "무단 전재", "재배포 금지", "기사 제보", "이 기사",
   "기사 내용", "클릭", "보기", "더 읽기", "전체 읽기"]

/-- `[가-힣]+\s*[=:]?\s*[가-힣]*\s*기자` (lines 881 and 1010). -/
def reByline : RE :=
  seqL [plus isHangulSyl, ws, opt eqColon, ws, .cstar isHangulSyl, ws, lit "기자"]

/-- `기자.*(?:말|보고|전망|분석|설명|밝혀|발표)` (line 883). -/
def reBylineExcl : RE :=
  seqL [lit "기자", dotStar,
        altL [lit "말", lit "보고", lit "전망", lit "분석", lit "설명", lit "밝혀", lit "발표"]]

/-- `[a-zA-Z0-9._%+-]`. -/
def emailLocalCh (c : Char) : Bool :=
  isLatin c || isDigitCh c || c = '.' || c = '_' || c = '%' || c = '+' || c = '-'

/-- `[a-zA-Z0-9.-]`. -/
def emailDomCh (c : Char) : Bool := isLatin c || isDigitCh c || c = '.' || c = '-'

/-- `[a-zA-Z0-9._%+-]+@[a-zA-Z0-9.-]+\.[a-zA-Z]{2,}` (line 887). -/
def reEmail : RE :=
  seqL [plus emailLocalCh, chr '@', plus emailDomCh, chr '.', repAtLeast isLatin 2]

/-- `https?://[^\s]+` (line 891). -/
def reURL : RE := seqL [lit "http", opt (chr 's'), lit "://", plus clsNonSpace]

/-- `(보기|클릭|읽기|확인|이동|더보기|전체보기|관련보기)` (lines 895 and 973). -/
def uiVerbs : RE :=
  altL [lit "보기", lit "클릭", lit "읽기", lit "확인", lit "이동",
        lit "더보기", lit "전체보기", lit "관련보기"]

/-- `re.search(r'...$', line)` on a newline-free line: some suffix of
the line matches the pattern up to its very end. -/
def endsWithRe (r : RE) (l : List Char) : Bool := reFull (.seq dotStar r) l

/-- `관련(사진|기사|영상|뉴스|기사)보기` (line 899; the duplicated `기사`
alternative of the source is kept). -/
def reRelView : RE :=
  seqL [lit "관련", altL [lit "사진", lit "기사", lit "영상", lit "뉴스", lit "기사"], lit "보기"]

/-- `^(관련|추천|더|전체|기사|뉴스|사진|영상).*(보기|클릭|읽기|확인|이동)`
(line 907; `re.search` of a `^`-anchored pattern, so used with
`reMatch`). -/
def reUIStart : RE :=
  seqL [altL [lit "관련", lit "추천", lit "더", lit "전체", lit "기사", lit "뉴스", lit "사진", lit "영상"],
        dotStar,
        altL [lit "보기", lit "클릭", lit "읽기", lit "확인", lit "이동"]]

/-- `(사진|그림|표|캡션|포토|이미지)`. -/
def capWords : RE :=
  altL [lit "사진", lit "그림", lit "표", lit "캡션", lit "포토", lit "이미지"]

/-- `^\[(사진|그림|표|캡션|포토|이미지)[=:].*\]` (line 911). -/
def reBracketCapLine : RE := seqL [chr '[', capWords, eqColon, dotStar, chr ']']

/-- `^\[.*\]$` (line 915), used with `reFull`. -/
def reBracketOnly : RE := seqL [chr '[', dotStar, chr ']']

/-- The 33 press agencies of lines 919 and 976. -/
def agencies : List String :=
  ["뉴시스", "연합뉴스", "조선일보", "중앙일보", "동아일보", "한겨레", "경향신문",
   "매일경제", "한국경제", "서울신문", "세계일보", "문화일보", "국민일보", "내일신문",
   "헤럴드경제", "아시아경제", "이데일리", "뉴스1", "YTN", "SBS", "KBS", "MBC",
   "JTBC", "채널A", "TV조선", "MBN", "기자협회", "AP", "AFP", "로이터", "로이터통신",
   "Reuters", "AP통신"]

/-- `\[(뉴시스|...)\]\s*` — anchored (`reMatch`) at line 919, scanned by
`reSub` at line 976. -/
def reAgency : RE := seqL [chr '[', altL (agencies.map litI), chr ']', ws]

/-- `[^)]`. -/
def notRParen (c : Char) : Bool := c ≠ ')'

/-- `\(W\s*[=:]\s*[^)]+\)` for `W` ∈ {사진, 그림, 표} (lines 923–928 and
965–967). -/
def parenCap (word : String) : RE :=
  seqL [chr '(', lit word, ws, eqColon, ws, plus notRParen, chr ')']

/-- `\[.*\]\s*.*\(사진\s*[=:]\s*[^)]+\)` (lines 932 and 979). -/
def reSrcPhoto : RE := seqL [chr '[', dotStar, chr ']', ws, dotStar, parenCap "사진"]

/-- `[/]?\s*사진\s*제공\s*[=:]` (lines 936 and 940 — the source tests the
same pattern twice in a row; the second test is redundant and is not
duplicated here). -/
def rePhotoProv : RE := seqL [opt (chr '/'), ws, lit "사진", ws, lit "제공", ws, eqColon]

/-- `[/]?\s*제공\s*[=:]` (line 945). -/
def reProv : RE := seqL [opt (chr '/'), ws, lit "제공", ws, eqColon]

/-- The job titles of lines 952 and 990. -/
def titleWords : List String :=
  ["CEO", "대표", "회장", "사장", "이사", "부장", "차장", "과장", "팀장",
   "실장", "본부장", "그룹장", "총괄", "책임", "담당"]

/-- `\b` holds to the right of a word ending here. -/
def wbAfter : List Char → Bool
  | [] => true
  | d :: _ => !isWordCh d

/-- The word `w` occurs at this position with a boundary at its right
end. -/
def wbMatchAt (w : List Char) (l : List Char) : Bool :=
  startsWithL w l && wbAfter (l.drop w.length)

/-- `re.search(r'\b(W1|...|Wn)\b', line)`: scan for one of the words
with boundaries on both sides; `prevWord` records whether the preceding
character was a word character. -/
def searchWBGo (words : List String) : Bool → List Char → Bool
  | _, [] => false
  | prevWord, c :: rest =>
    (!prevWord && words.any fun w => wbMatchAt w.data (c :: rest)) ||
      searchWBGo words (isWordCh c) rest

def searchWB (words : List String) (l : List Char) : Bool := searchWBGo words false l

/-- The per-line skip decision of the cleaning loop (lines 849–956) with
the checks in source order; `line` is already stripped and nonempty. -/
def lineSkip (line : List Char) : Bool :=
  reSearch reHash line ||
  reSearch (reCap "사진") line || reSearch (reCap "그림") line || reSearch (reCap "표") line ||
  skip_patterns.any (fun r => reMatch r line) ||
  skip_keywords.any (fun k => containsSub k.data line) ||
  (reSearch reByline line && !reSearch reBylineExcl line) ||
  reSearch reEmail line ||
  (reSearch reURL line && decide (pyLen line < 100)) ||
  endsWithRe uiVerbs line ||
  reSearch reRelView line ||
  (decide (pyLen line < 10) && !reSearch (repAtLeast isHangulSyl 3) line) ||
  reMatch reUIStart line ||
  reMatch reBracketCapLine line ||
  (reFull reBracketOnly line && decide (pyLen line < 50)) ||
  reMatch reAgency line ||
  reSearch (parenCap "사진") line || reSearch (parenCap "그림") line || reSearch (parenCap "표") line ||
  reSearch reSrcPhoto line ||
  reSearch rePhotoProv line ||
  (reSearch reProv line && decide (pyLen line < 100)) ||
  (decide (pyLen line < 50) && (searchWB titleWords line && !reSearch (repAtLeast isHangulSyl 10) line))

/-- Lines 727–733: hashtag and photo-credit pre-substitutions. -/
def cleanStage1 (t : List Char) : List Char :=
  reSub (reCap "표") [] (reSub (reCap "그림") [] (reSub (reCap "사진") [] (reSub reHash [] t)))

/-- Lines 849–956: strip each line, drop empty and skipped lines. -/
def keptLines (ls : List (List Char)) : List (List Char) :=
  ls.filterMap fun l =>
    let s := pyStrip l
    if s.isEmpty then none else if lineSkip s then none else some s

/-- Line 959: rejoin the kept lines. -/
def cleanStage2 (t : List Char) : List Char := joinNL (keptLines (splitNL t))

/-- `[^\]]`. -/
def notRBracket (c : Char) : Bool := c ≠ ']'

/-- `\[(사진|그림|표|캡션|포토|이미지)[=:][^\]]*\]` (line 962). -/
def gBracketCap : RE := seqL [chr '[', capWords, eqColon, .cstar notRBracket, chr ']']

/-- `관련(사진|기사|영상|뉴스)보기` (line 970; no duplicated `기사` here,
unlike line 899). -/
def gRelView : RE :=
  seqL [lit "관련", altL [lit "사진", lit "기사", lit "영상", lit "뉴스"], lit "보기"]

/-- `re.sub(r'^.*(보기|클릭|...)$', '', ·, re.MULTILINE)` (line 973):
with `re.MULTILINE`, each line whose content ends in a UI verb is
emptied. -/
def perLineEraseUI (t : List Char) : List Char :=
  joinNL ((splitNL t).map fun l => if reFull (.seq dotStar uiVerbs) l then [] else l)

/-- `[/]?\s*사진\s*제공\s*[=:][^\n]*` (line 982). -/
def gPhotoProvLine : RE :=
  seqL [opt (chr '/'), ws, lit "사진", ws, lit "제공", ws, eqColon, .cstar clsDot]

/-- `[/]\s*[가-힣a-zA-Z\s]+\s*제공` (lines 985 and 378). -/
def gSlashProv : RE := seqL [chr '/', ws, plus clsHanLatSp, ws, lit "제공"]

/-- `[/]?\s*제공\s*[=:][^\n]*` (lines 986 and 379). -/
def gProvLine : RE := seqL [opt (chr '/'), ws, lit "제공", ws, eqColon, .cstar clsDot]

/-- `[가-힣a-zA-Z\s]+\s+(CEO|대표|...)\s*[/]?\s*사진\s*제공\s*[=:][^\n]*`
(line 990; `re.IGNORECASE` applies to the Latin title `CEO`). -/
def gTitlePhotoProv : RE :=
  seqL [plus clsHanLatSp, plus clsSpace, altL (titleWords.map litI), ws,
        opt (chr '/'), ws, lit "사진", ws, lit "제공", ws, eqColon, .cstar clsDot]

/-- `[가-힣\s]`. -/
def clsHanSp (c : Char) : Bool := isHangulSyl c || pyIsSpace c

/-- `(조감도|사진|그림|표|이미지)`. -/
def diagrams : RE := altL [lit "조감도", lit "사진", lit "그림", lit "표", lit "이미지"]

/-- `[가-힣\s]+(조감도|사진|그림|표|이미지)[\.]?\s*[/]\s*[가-힣a-zA-Z\s]+\s*제공`
(lines 994 and 380). -/
def gDiagramProv : RE :=
  seqL [plus clsHanSp, diagrams, opt (chr '.'), ws, chr '/', ws, plus clsHanLatSp, ws, lit "제공"]

/-- `[가-힣\s]+(조감도|사진|그림|표|이미지)[\.]?\s*[/]\s*[가-힣a-zA-Z\s]+`
(line 995). -/
def gDiagramSrc : RE :=
  seqL [plus clsHanSp, diagrams, opt (chr '.'), ws, chr '/', ws, plus clsHanLatSp]

/-- `[\n]` as a class. -/
def isNLCh (c : Char) : Bool := c = '\n'

/-- `\n\s*\n\s*\n+` (line 998), replaced by two newlines. -/
def nlRun3 : RE := seqL [chr '\n', ws, chr '\n', ws, plus isNLCh]

/-- `\n\s*\n+` (line 999), replaced by one newline. -/
def nlRun2 : RE := seqL [chr '\n', ws, plus isNLCh]

/-- `[ ]` as a class. -/
def isSpCh (c : Char) : Bool := c = ' '

/-- ` +` (line 1000), replaced by one space. -/
def spaceRun : RE := plus isSpCh

/-- Lines 961–1001: the global substitutions after rejoining, in source
order (innermost application first), ending with `strip`. -/
def cleanStage3 (t : List Char) : List Char :=
  pyStrip (reSub spaceRun [' '] (reSub nlRun2 ['\n'] (reSub nlRun3 ['\n', '\n']
    (reSub gDiagramSrc [] (reSub gDiagramProv [] (reSub gTitlePhotoProv []
    (reSub gProvLine [] (reSub gSlashProv [] (reSub gPhotoProvLine []
    (reSub reSrcPhoto [] (reSub reAgency [] (perLineEraseUI
    (reSub gRelView [] (reSub (parenCap "표") [] (reSub (parenCap "그림") []
    (reSub (parenCap "사진") [] (reSub gBracketCap [] t)))))))))))))))))

/-- Lines 1003–1018: truncate before the first short byline line (only
when it is not the very first line), then strip. -/
def cleanStage4 (t : List Char) : List Char :=
  match (splitNL t).findIdx? (fun l => reSearch reByline l && decide (pyLen l < 50)) with
  | some i => if 0 < i then pyStrip (joinNL ((splitNL t).take i)) else pyStrip t
  | none => pyStrip t

/-- `NaverNewsAPICrawler._clean_article_text` (lines 719–1018). -/
def clean_article_text (text : List Char) : List Char :=
  if text.isEmpty then text
  else cleanStage4 (cleanStage3 (cleanStage2 (cleanStage1 text)))

/-! ## `_summarize_with_kosum` preprocessing (crawl_naver_api.py 370–426) -/

/-- Lines 373–380: the pre-substitutions before line selection. -/
def kosumPre (text : List Char) : List Char :=
  reSub gDiagramProv [] (reSub gProvLine [] (reSub gSlashProv []
    (reSub (reCap "표") [] (reSub (reCap "그림") [] (reSub (reCap "사진") []
    (reSub reHash [] text))))))

/-- `[/]?\s*제공|조감도|사진\s*제공` (line 411); the alternation splits at
the top level. -/
def kosumProvCheck : RE :=
  altL [seqL [opt (chr '/'), ws, lit "제공"], lit "조감도", seqL [lit "사진", ws, lit "제공"]]

/-- Line 407: the "body text starts here" test. -/
def kosumSentCond (line : List Char) : Bool :=
  reSearch (repAtLeast isHangulSyl 5) line &&
    (containsSub ['.'] line || containsSub "다".data line || containsSub "다.".data line)

/-- Lines 387–420: the line-selection loop with its
`found_first_sentence` state and the byline break.  Before the first
sentence is found, caption lines and lines shorter than 20 characters
are skipped explicitly, and any other non-sentence line falls through
both `if` blocks without being appended. -/
def kosumLoop (found : Bool) : List (List Char) → List (List Char)
  | [] => []
  | l0 :: rest =>
    let line := pyStrip l0
    if line.isEmpty then kosumLoop found rest
    else if reSearch reHash line then kosumLoop found rest
    else if reSearch (reCap "사진") line then kosumLoop found rest
    else if reSearch (reCap "그림") line then kosumLoop found rest
    else if reSearch (reCap "표") line then kosumLoop found rest
    else if found || kosumSentCond line then
      if reSearch reByline line && decide (pyLen line < 50) then []
      else line :: kosumLoop true rest
    else if reSearch kosumProvCheck line then kosumLoop found rest
    else if decide (pyLen line < 20) then kosumLoop found rest
    else kosumLoop found rest

/-- The fallback of lines 422–424: the stripped pre-cleaning lines
longer than 20 characters. -/
def kosumFallbackLines (t : List Char) : List (List Char) :=
  (splitNL t).filterMap fun l =>
    let s := pyStrip l
    if !s.isEmpty && decide (20 < pyLen s) then some s else none

/-- Lines 383–426: the text handed to the KoBART summarizer (before the
512-character input truncation). -/
def kosum_text_to_summarize (text : List Char) : List Char :=
  let t := kosumPre text
  let kept := kosumLoop false (splitNL t)
  joinNL (if kept.isEmpty then kosumFallbackLines t else kept)

/-- The first character of the keyword is neither `'가'` nor a space. -/
def headNotGaSp (k : String) : Bool :=
  match k.data with
  | [] => false
  | c :: _ => decide (c ≠ '가') && decide (c ≠ ' ')

/-- The pattern cannot match the empty string, nor start at `'가'` or a
space. -/
def patOKGaSp (r : RE) : Bool :=
  !nullable r && !canStart r '가' && !canStart r ' '

/-- The idempotence counterexample input for the cleaner. -/
def c2Text : List Char := "가나 [포토:abc] 다라".data

/-- A single long plausible content line that the cleaner drops entirely
(its first two characters are `댓글`, hitting both a skip pattern and a
skip keyword). -/
def c7Text : List Char := "댓글이 많이 달린 아주 아주 긴 줄입니다 정말로".data

/-! ## Lemmas -/

theorem pyLenGo_eq (l : List Char) : ∀ n, pyLenGo l n = l.length + n := by
  induction l with
  | nil => intro n; simp [pyLenGo]
  | cons c rest ih =>
    intro n
    cases n with
    | zero => simp [pyLenGo, ih]
    | succ m => simp only [pyLenGo, ih, List.length_cons]; omega

theorem pyLen_eq (l : List Char) : pyLen l = l.length := by
  simp [pyLen, pyLenGo_eq]

theorem runLen_le_length (p : Char → Bool) :
    ∀ l : List Char, runLen p l ≤ l.length := by
  intro l
  induction l with
  | nil => simp [runLen]
  | cons c rest ih =>
    by_cases h : p c
    · simp only [runLen, h, if_true, List.length_cons]; omega
    · simp [runLen, h]

theorem mem_matchEnds_le {r : RE} :
    ∀ {l : List Char} {k : Nat}, k ∈ matchEnds r l → k ≤ l.length := by
  induction r with
  | eps =>
    intro l k h
    simp [matchEnds] at h
    omega
  | cls p =>
    intro l k h
    cases l with
    | nil => simp [matchEnds] at h
    | cons c rest =>
      by_cases hp : p c <;> simp [matchEnds, hp] at h
      simp [h]
  | cstar p =>
    intro l k h
    simp [matchEnds, List.mem_range] at h
    have := runLen_le_length p l
    omega
  | seq a b iha ihb =>
    intro l k h
    simp only [matchEnds, List.mem_dedup, List.mem_flatMap, List.mem_map] at h
    obtain ⟨ka, hka, kb, hkb, hsum⟩ := h
    have h1 := iha hka
    have h2 := ihb hkb
    simp only [List.length_drop] at h2
    omega
  | alt a b iha ihb =>
    intro l k h
    simp only [matchEnds, List.mem_dedup, List.mem_append] at h
    cases h with
    | inl h => exact iha h
    | inr h => exact ihb h

theorem nullable_of_mem_matchEnds {r : RE} :
    ∀ {l : List Char}, 0 ∈ matchEnds r l → nullable r = true := by
  induction r with
  | eps => intro l _; simp [nullable]
  | cls p =>
    intro l h
    cases l with
    | nil => simp [matchEnds] at h
    | cons c rest => by_cases hp : p c <;> simp [matchEnds, hp] at h
  | cstar p => intro l _; simp [nullable]
  | seq a b iha ihb =>
    intro l h
    simp only [matchEnds, List.mem_dedup, List.mem_flatMap, List.mem_map] at h
    obtain ⟨ka, hka, kb, hkb, hsum⟩ := h
    have hka0 : ka = 0 := by omega
    have hkb0 : kb = 0 := by omega
    subst hka0; subst hkb0
    simp only [List.drop_zero] at hkb
    simp [nullable, iha hka, ihb hkb]
  | alt a b iha ihb =>
    intro l h
    simp only [matchEnds, List.mem_dedup, List.mem_append] at h
    cases h with
    | inl h => simp [nullable, iha h]
    | inr h => simp [nullable, ihb h]

theorem canStart_of_mem_matchEnds {r : RE} :
    ∀ {c : Char} {rest : List Char} {k : Nat},
      k ∈ matchEnds r (c :: rest) → k ≠ 0 → canStart r c = true := by
  induction r with
  | eps =>
    intro c rest k h hk
    simp [matchEnds] at h
    omega
  | cls p =>
    intro c rest k h hk
    by_cases hp : p c <;> simp [matchEnds, hp] at h
    simp [canStart, hp]
  | cstar p =>
    intro c rest k h hk
    simp only [matchEnds, List.mem_range] at h
    by_cases hp : p c
    · simp [canStart, hp]
    · simp [runLen, hp] at h
      omega
  | seq a b iha ihb =>
    intro c rest k h hk
    simp only [matchEnds, List.mem_dedup, List.mem_flatMap, List.mem_map] at h
    obtain ⟨ka, hka, kb, hkb, hsum⟩ := h
    by_cases h0 : ka = 0
    · subst h0
      simp only [List.drop_zero] at hkb
      have hb := ihb hkb (by omega)
      have ha := nullable_of_mem_matchEnds hka
      simp [canStart, ha, hb]
    · have ha := iha hka h0
      simp [canStart, ha]
  | alt a b iha ihb =>
    intro c rest k h hk
    simp only [matchEnds, List.mem_dedup, List.mem_append] at h
    cases h with
    | inl h => simp [canStart, iha h hk]
    | inr h => simp [canStart, ihb h hk]

theorem reMatch_eq_false {r : RE} {l : List Char} (hn : nullable r = false)
    (h : ∀ x ∈ l, canStart r x = false) : reMatch r l = false := by
  cases hm : matchEnds r l with
  | nil => simp [reMatch, hm]
  | cons k ks =>
    exfalso
    have hk : k ∈ matchEnds r l := by rw [hm]; exact List.mem_cons_self _ _
    cases l with
    | nil =>
      have hle := mem_matchEnds_le hk
      have hk0 : k = 0 := by simpa using hle
      subst hk0
      rw [nullable_of_mem_matchEnds hk] at hn
      exact Bool.true_eq_false.mp hn
    | cons c rest =>
      by_cases hk0 : k = 0
      · subst hk0
        rw [nullable_of_mem_matchEnds hk] at hn
        exact Bool.true_eq_false.mp hn
      · have hc := canStart_of_mem_matchEnds hk hk0
        rw [h c (List.mem_cons_self _ _)] at hc
        exact Bool.true_eq_false.mp hc.symm

theorem reSearch_eq_false {r : RE} (hn : nullable r = false) :
    ∀ {l : List Char}, (∀ x ∈ l, canStart r x = false) → reSearch r l = false := by
  intro l
  induction l with
  | nil =>
    intro h
    simpa [reSearch] using reMatch_eq_false hn (by simp)
  | cons c rest ih =>
    intro h
    have h1 := reMatch_eq_false hn h
    have h2 := ih fun x hx => h x (List.mem_cons_of_mem _ hx)
    simp [reSearch, h1, h2]

theorem containsSub_eq_false_of_head {c : Char} {cs hay : List Char}
    (h : ∀ x ∈ hay, ¬(c = x)) : containsSub (c :: cs) hay = false := by
  induction hay with
  | nil => rfl
  | cons x rest ih =>
    have hx := h x (List.mem_cons_self _ _)
    have ihr := ih fun y hy => h y (List.mem_cons_of_mem _ hy)
    simp [containsSub, startsWithL, hx, ihr]

theorem countContains_zero_of {keys : List String} {hay : List Char}
    (hh : ∀ x ∈ hay, x = '가' ∨ x = ' ')
    (hk : keys.all headNotGaSp = true) : countContains keys hay = 0 := by
  rw [countContains, List.length_eq_zero, List.filter_eq_nil_iff]
  intro k hkm
  have h1 := (List.all_eq_true.mp hk) k hkm
  cases hd : k.data with
  | nil => simp [headNotGaSp, hd] at h1
  | cons c cs =>
    simp only [headNotGaSp, hd, Bool.and_eq_true, decide_eq_true_eq] at h1
    have h2 : containsSub (c :: cs) hay = false := by
      apply containsSub_eq_false_of_head
      intro x hx
      rcases hh x hx with rfl | rfl
      · exact h1.1
      · exact h1.2
    simp [hd, h2]

theorem countSearch_zero_of {pats : List RE} {hay : List Char}
    (hh : ∀ x ∈ hay, x = '가' ∨ x = ' ')
    (hp : pats.all patOKGaSp = true) : countSearch pats hay = 0 := by
  rw [countSearch, List.length_eq_zero, List.filter_eq_nil_iff]
  intro r hrm
  have h1 := (List.all_eq_true.mp hp) r hrm
  simp only [patOKGaSp, Bool.and_eq_true, Bool.not_eq_true'] at h1
  have : reSearch r hay = false := by
    apply reSearch_eq_false h1.1.1
    intro x hx
    rcases hh x hx with rfl | rfl
    · exact h1.1.2
    · exact h1.2
  simp [this]

/-- `re.search` of a single character class is `List.any`. -/
theorem reSearch_cls (p : Char → Bool) :
    ∀ l : List Char, reSearch (.cls p) l = l.any p := by
  intro l
  induction l with
  | nil => simp [reSearch, reMatch, matchEnds]
  | cons c rest ih =>
    by_cases h : p c <;> simp [reSearch, reMatch, matchEnds, h, ih]

theorem all_space_of_countWords_zero :
    ∀ {l : List Char}, countWordsAux false l = 0 → ∀ c ∈ l, pyIsSpace c = true := by
  intro l
  induction l with
  | nil => simp
  | cons c rest ih =>
    intro h x hx
    by_cases hc : pyIsSpace c
    · simp only [countWordsAux, hc, if_true] at h
      rcases List.mem_cons.mp hx with rfl | hx2
      · exact hc
      · exact ih h x hx2
    · simp [countWordsAux, hc] at h

theorem space_not_latin {c : Char} (h : pyIsSpace c = true) : isLatin c = false := by
  simp only [pyIsSpace, Bool.or_eq_true, decide_eq_true_eq] at h
  rcases h with ((((rfl | rfl) | rfl) | rfl) | rfl) | rfl <;> decide

theorem latin_ne_space {c : Char} (h : isLatin c = true) : c ≠ ' ' := by
  intro hc
  subst hc
  exact absurd h (by decide)

theorem latin_le_nonspace (l : List Char) :
    (l.filter isLatin).length ≤ (l.filter fun c => c ≠ ' ').length := by
  apply List.Sublist.length_le
  apply List.monotone_filter_right
  intro c
  by_cases h : isLatin c = true
  · simp [h, latin_ne_space h]
  · simp [Bool.eq_false_iff.mpr h]

/-- The source's `_is_english_article` body agrees with the spec's
formulation on every content string. -/
theorem is_english_core_eq (content : List Char) :
    is_english_core content = isEnglishSpecCore content := by
  by_cases h0 : content = []
  · subst h0; rfl
  · have hne : content.isEmpty = false := List.isEmpty_eq_false.mpr h0
    by_cases hk : content.any isHangulSyl = true
    · have hks : reSearch (.cls isHangulSyl) content = true := by
        rw [reSearch_cls]; exact hk
      obtain ⟨c, hc, hpc⟩ := List.any_eq_true.mp hk
      have hall : (content.all fun c => !isHangulSyl c) = false :=
        List.all_eq_false.mpr ⟨c, hc, by simp [hpc]⟩
      simp [is_english_core, isEnglishSpecCore, hne, hks, hall]
    · have hkf : content.any isHangulSyl = false := Bool.not_eq_true _ ▸ (by simpa using hk)
      have hks : reSearch (.cls isHangulSyl) content = false := by
        rw [reSearch_cls]; exact hkf
      have hall : (content.all fun c => !isHangulSyl c) = true := by
        rw [List.all_eq_true]
        intro x hx
        simp [List.any_eq_false.mp hkf x hx]
      by_cases hw : countWords content = 0
      · have hsp := all_space_of_countWords_zero (l := content) hw
        have hlat : content.filter isLatin = [] := by
          rw [List.filter_eq_nil_iff]
          intro a ha hla
          rw [space_not_latin (hsp a ha)] at hla
          exact Bool.false_ne_true hla
        simp [is_english_core, isEnglishSpecCore, hne, hks, hw, hall, hlat]
      · have hratio : englishRatQ content > 7 / 10
            ↔ 7 * (content.filter fun c => c ≠ ' ').length
              < 10 * (content.filter isLatin).length := by
          unfold englishRatQ
          by_cases hnz : (content.filter fun c => c ≠ ' ').length > 0
          · rw [if_pos hnz, gt_iff_lt,
              div_lt_div_iff₀ (by norm_num) (by exact_mod_cast hnz)]
            constructor
            · intro h
              have h2 : ((7 * (content.filter fun c => c ≠ ' ').length : ℕ) : ℚ)
                  < ((10 * (content.filter isLatin).length : ℕ) : ℚ) := by
                push_cast
                linarith
              exact_mod_cast h2
            · intro h
              have h2 : ((7 * (content.filter fun c => c ≠ ' ').length : ℕ) : ℚ)
                  < ((10 * (content.filter isLatin).length : ℕ) : ℚ) := by
                exact_mod_cast h
              push_cast at h2
              linarith
          · rw [if_neg hnz]
            have hns0 : (content.filter fun c => c ≠ ' ').length = 0 := by omega
            have hl0 : (content.filter isLatin).length = 0 := by
              have := latin_le_nonspace content
              omega
            norm_num [hns0, hl0]
        by_cases hr : englishRatQ content > 7 / 10
        · have h2 := hratio.mp hr
          simp only [ne_eq, decide_not] at h2
          simp [is_english_core, isEnglishSpecCore, hne, hks, hw, hall, hr, h2]
        · have h2 : ¬(7 * (content.filter fun c => c ≠ ' ').length
              < 10 * (content.filter isLatin).length) := fun hh => hr (hratio.mpr hh)
          simp only [ne_eq, decide_not] at h2
          simp [is_english_core, isEnglishSpecCore, hne, hks, hw, hall, hr, h2]

theorem startsWithL_append_self :
    ∀ n B : List Char, startsWithL n (n ++ B) = true := by
  intro n B
  induction n with
  | nil => rfl
  | cons c cs ih => simp [startsWithL, ih]

theorem containsSub_nil (l : List Char) : containsSub [] l = true := by
  induction l with
  | nil => rfl
  | cons c rest ih => simp [containsSub, startsWithL]

theorem containsSub_here (n B : List Char) : containsSub n (n ++ B) = true := by
  cases n with
  | nil => simpa using containsSub_nil B
  | cons c cs =>
    have h := startsWithL_append_self (c :: cs) B
    simp only [containsSub, Bool.or_eq_true]
    exact Or.inl (by simpa using h)

theorem containsSub_append_left (A : List Char) {n rest : List Char}
    (h : containsSub n rest = true) : containsSub n (A ++ rest) = true := by
  induction A with
  | nil => simpa using h
  | cons a A ih =>
    cases n with
    | nil => exact containsSub_nil _
    | cons c cs => simp [containsSub, ih]

theorem ftStrong_temp (c : Nat) :
    (ftStrongResult c).temperature = clampZ 0 100 (pyTrunc (ftStrongScore c * 100)) := by
  have h0 : (0 : ℚ) ≤ ftStrongScore c := le_max_left 0 _
  have h1 : ftStrongScore c ≤ 1 / 5 := by
    apply max_le
    · norm_num
    · have : (0 : ℚ) ≤ (c : ℚ) * (1 / 10) := by positivity
      linarith
  have h2 : (0 : ℚ) ≤ ftStrongScore c * 100 := by positivity
  have h3 : ftStrongScore c * 100 ≤ 20 := by linarith
  have h4 : pyTrunc (ftStrongScore c * 100) = ⌊ftStrongScore c * 100⌋ := if_pos h2
  have h5 : (0 : ℤ) ≤ ⌊ftStrongScore c * 100⌋ := Int.floor_nonneg.mpr h2
  have h6 : ⌊ftStrongScore c * 100⌋ ≤ 20 := by
    have h7 : ⌊ftStrongScore c * 100⌋ < 21 := by
      apply Int.floor_lt.mpr
      push_cast
      linarith
    omega
  simp only [ftStrongResult, clampZ, h4]
  omega

theorem finetuned_branch_strong {pn pu pp : ℚ} {tfa : List Char}
    (h : 0 < ft_strong_count (pyLower tfa)) :
    finetuned_branch pn pu pp tfa = ftStrongResult (ft_strong_count (pyLower tfa)) := by
  unfold finetuned_branch
  simp [h]

/-! ### Length bounds for the text cleaner -/

theorem reMinLen_le_mem {r : RE} :
    ∀ {l : List Char} {k : Nat}, k ∈ matchEnds r l → reMinLen r ≤ k := by
  induction r with
  | eps => intro l k h; simp [reMinLen]
  | cls p =>
    intro l k h
    cases l with
    | nil => simp [matchEnds] at h
    | cons c rest =>
      by_cases hp : p c <;> simp [matchEnds, hp] at h
      simp [reMinLen, h]
  | cstar p => intro l k h; simp [reMinLen]
  | seq a b iha ihb =>
    intro l k h
    simp only [matchEnds, List.mem_dedup, List.mem_flatMap, List.mem_map] at h
    obtain ⟨ka, hka, kb, hkb, hsum⟩ := h
    have h1 := iha hka
    have h2 := ihb hkb
    simp only [reMinLen]
    omega
  | alt a b iha ihb =>
    intro l k h
    simp only [matchEnds, List.mem_dedup, List.mem_append] at h
    simp only [reMinLen]
    cases h with
    | inl h => exact le_trans (Nat.min_le_left _ _) (iha h)
    | inr h => exact le_trans (Nat.min_le_right _ _) (ihb h)

theorem maxEnd_mem {L : List Nat} (h : maxEnd L ≠ 0) : maxEnd L ∈ L := by
  induction L with
  | nil => simp [maxEnd] at h
  | cons x xs ih =>
    have hx : maxEnd (x :: xs) = max x (maxEnd xs) := rfl
    rcases Nat.le_total x (maxEnd xs) with hle | hle
    · rw [hx, Nat.max_eq_right hle] at h ⊢
      exact List.mem_cons_of_mem _ (ih h)
    · rw [hx, Nat.max_eq_left hle]
      exact List.mem_cons_self _ _

/-- A substitution whose replacement is no longer than any match never
grows the text. -/
theorem reSubGo_length {r : RE} {repl : List Char} (hr : repl.length ≤ reMinLen r) :
    ∀ (fuel : Nat) (l : List Char), (reSubGo r repl fuel l).length ≤ l.length := by
  intro fuel
  induction fuel with
  | zero => intro l; simp [reSubGo]
  | succ n ih =>
    intro l
    cases l with
    | nil => simp [reSubGo]
    | cons c rest =>
      simp only [reSubGo]
      split
      · simp only [List.length_cons]
        have := ih rest
        omega
      · next hm =>
        have hmem := maxEnd_mem hm
        have h1 := reMinLen_le_mem hmem
        have h2 := mem_matchEnds_le hmem
        rw [List.length_append]
        have h3 := ih ((c :: rest).drop (maxEnd (matchEnds r (c :: rest))))
        rw [List.length_drop] at h3
        omega

theorem reSub_length_le (r : RE) (repl l : List Char) (hr : repl.length ≤ reMinLen r) :
    (reSub r repl l).length ≤ l.length :=
  reSubGo_length hr l.length l

theorem joinNL_length :
    ∀ ls : List (List Char), (joinNL ls).length = (ls.map List.length).sum + (ls.length - 1) := by
  intro ls
  induction ls with
  | nil => simp [joinNL]
  | cons l tail ih =>
    cases tail with
    | nil => simp [joinNL]
    | cons l2 rest =>
      simp only [joinNL, List.length_append, List.length_cons, List.map_cons,
        List.sum_cons] at ih ⊢
      omega

theorem sumLen_filterMap_le (f : List Char → Option (List Char))
    (hf : ∀ l s, f l = some s → s.length ≤ l.length) :
    ∀ ls : List (List Char),
      ((ls.filterMap f).map List.length).sum ≤ (ls.map List.length).sum := by
  intro ls
  induction ls with
  | nil => simp
  | cons l tail ih =>
    cases hfl : f l with
    | none =>
      simp only [List.filterMap_cons, hfl, List.map_cons, List.sum_cons]
      omega
    | some s =>
      have := hf l s hfl
      simp only [List.filterMap_cons, hfl, List.map_cons, List.sum_cons]
      omega

theorem joinNL_filterMap_le (f : List Char → Option (List Char))
    (hf : ∀ l s, f l = some s → s.length ≤ l.length) (ls : List (List Char)) :
    (joinNL (ls.filterMap f)).length ≤ (joinNL ls).length := by
  rw [joinNL_length, joinNL_length]
  have h1 := sumLen_filterMap_le f hf ls
  have h2 := List.length_filterMap_le f ls
  omega

theorem sumLen_map_le (f : List Char → List Char)
    (hf : ∀ l, (f l).length ≤ l.length) :
    ∀ ls : List (List Char),
      ((ls.map f).map List.length).sum ≤ (ls.map List.length).sum := by
  intro ls
  induction ls with
  | nil => simp
  | cons l tail ih =>
    simp only [List.map_cons, List.sum_cons]
    have := hf l
    omega

theorem joinNL_map_le (f : List Char → List Char)
    (hf : ∀ l, (f l).length ≤ l.length) (ls : List (List Char)) :
    (joinNL (ls.map f)).length ≤ (joinNL ls).length := by
  rw [joinNL_length, joinNL_length]
  have h1 := sumLen_map_le f hf ls
  simp only [List.length_map]
  omega

theorem sumLen_take_le (ls : List (List Char)) : ∀ i : Nat,
    ((ls.take i).map List.length).sum ≤ (ls.map List.length).sum := by
  induction ls with
  | nil => intro i; simp
  | cons l tail ih =>
    intro i
    cases i with
    | zero => simp
    | succ j =>
      simp only [List.take_succ_cons, List.map_cons, List.sum_cons]
      have := ih j
      omega

theorem joinNL_take_le (ls : List (List Char)) (i : Nat) :
    (joinNL (ls.take i)).length ≤ (joinNL ls).length := by
  rw [joinNL_length, joinNL_length]
  have h1 := sumLen_take_le ls i
  have h2 : (ls.take i).length ≤ ls.length := by
    rw [List.length_take]; exact Nat.min_le_right _ _
  omega

theorem pyStrip_length_le (l : List Char) : (pyStrip l).length ≤ l.length := by
  unfold pyStrip
  rw [List.length_reverse]
  have h1 : ((l.dropWhile pyIsSpace).reverse.dropWhile pyIsSpace).length ≤
      (l.dropWhile pyIsSpace).reverse.length :=
    (List.dropWhile_sublist _).length_le
  rw [List.length_reverse] at h1
  exact le_trans h1 (List.dropWhile_sublist _).length_le

theorem splitNL_ne_nil : ∀ t : List Char, splitNL t ≠ [] := by
  intro t
  cases t with
  | nil => simp [splitNL]
  | cons c rest =>
    unfold splitNL
    rcases h : splitNL rest with _ | ⟨a, as⟩ <;> rcases hd : decide (c = '\n') <;> simp

theorem splitNL_cons_nl (rest : List Char) :
    splitNL ('\n' :: rest) = [] :: splitNL rest := by
  rcases h : splitNL rest with _ | ⟨a, as⟩ <;> simp [splitNL, h]

theorem splitNL_cons_other {c : Char} (hc : c ≠ '\n') (rest : List Char) {a : List Char}
    {as : List (List Char)} (h : splitNL rest = a :: as) :
    splitNL (c :: rest) = (c :: a) :: as := by
  unfold splitNL
  rw [h]
  simp [hc]

theorem joinNL_splitNL : ∀ t : List Char, joinNL (splitNL t) = t := by
  intro t
  induction t with
  | nil => rfl
  | cons c rest ih =>
    by_cases hc : c = '\n'
    · subst hc
      rw [splitNL_cons_nl]
      rcases h : splitNL rest with _ | ⟨a, as⟩
      · exact absurd h (splitNL_ne_nil rest)
      · rw [h] at ih
        calc joinNL ([] :: a :: as) = '\n' :: joinNL (a :: as) := rfl
        _ = '\n' :: rest := by rw [ih]
    · rcases h : splitNL rest with _ | ⟨a, as⟩
      · exact absurd h (splitNL_ne_nil rest)
      · rw [splitNL_cons_other hc rest h]
        rw [h] at ih
        rcases as with _ | ⟨b, bs⟩
        · simp only [joinNL] at ih ⊢
          rw [ih]
        · simp only [joinNL] at ih ⊢
          rw [List.cons_append, ih]

theorem keptLines_le (ls : List (List Char)) :
    (joinNL (keptLines ls)).length ≤ (joinNL ls).length := by
  unfold keptLines
  apply joinNL_filterMap_le
  intro l s h
  dsimp only at h
  split at h
  · exact absurd h (by simp)
  · split at h
    · exact absurd h (by simp)
    · have hs : s = pyStrip l := by
        injection h with h2
        exact h2.symm
      rw [hs]
      exact pyStrip_length_le l

theorem cleanStage2_le (t : List Char) : (cleanStage2 t).length ≤ t.length := by
  unfold cleanStage2
  have h := keptLines_le (splitNL t)
  rw [joinNL_splitNL] at h
  exact h

theorem cleanStage1_le (t : List Char) : (cleanStage1 t).length ≤ t.length := by
  unfold cleanStage1
  exact le_trans (reSub_length_le _ _ _ (Nat.zero_le _))
    (le_trans (reSub_length_le _ _ _ (Nat.zero_le _))
      (le_trans (reSub_length_le _ _ _ (Nat.zero_le _))
        (reSub_length_le _ _ _ (Nat.zero_le _))))

theorem perLineEraseUI_le (t : List Char) : (perLineEraseUI t).length ≤ t.length := by
  unfold perLineEraseUI
  have h := joinNL_map_le (fun l => if reFull (.seq dotStar uiVerbs) l then [] else l)
    (by intro l; by_cases hI : reFull (.seq dotStar uiVerbs) l <;> simp [hI]) (splitNL t)
  rw [joinNL_splitNL] at h
  exact h

theorem cleanStage3_le (t : List Char) : (cleanStage3 t).length ≤ t.length := by
  unfold cleanStage3
  refine le_trans (pyStrip_length_le _) ?_
  refine le_trans (reSub_length_le _ _ _ (by decide)) ?_
  refine le_trans (reSub_length_le _ _ _ (by decide)) ?_
  refine le_trans (reSub_length_le _ _ _ (by decide)) ?_
  refine le_trans (reSub_length_le _ _ _ (Nat.zero_le _)) ?_
  refine le_trans (reSub_length_le _ _ _ (Nat.zero_le _)) ?_
  refine le_trans (reSub_length_le _ _ _ (Nat.zero_le _)) ?_
  refine le_trans (reSub_length_le _ _ _ (Nat.zero_le _)) ?_
  refine le_trans (reSub_length_le _ _ _ (Nat.zero_le _)) ?_
  refine le_trans (reSub_length_le _ _ _ (Nat.zero_le _)) ?_
  refine le_trans (reSub_length_le _ _ _ (Nat.zero_le _)) ?_
  refine le_trans (reSub_length_le _ _ _ (Nat.zero_le _)) ?_
  refine le_trans (perLineEraseUI_le _) ?_
  refine le_trans (reSub_length_le _ _ _ (Nat.zero_le _)) ?_
  refine le_trans (reSub_length_le _ _ _ (Nat.zero_le _)) ?_
  refine le_trans (reSub_length_le _ _ _ (Nat.zero_le _)) ?_
  refine le_trans (reSub_length_le _ _ _ (Nat.zero_le _)) ?_
  exact reSub_length_le _ _ _ (Nat.zero_le _)

theorem cleanStage4_le (t : List Char) : (cleanStage4 t).length ≤ t.length := by
  unfold cleanStage4
  split
  · next i hi =>
    split
    · refine le_trans (pyStrip_length_le _) ?_
      have h := joinNL_take_le (splitNL t) i
      rw [joinNL_splitNL] at h
      exact h
    · exact pyStrip_length_le t
  · exact pyStrip_length_le t

theorem clean_article_text_le (text : List Char) :
    (clean_article_text text).length ≤ text.length := by
  unfold clean_article_text
  split
  · exact le_refl _
  · exact le_trans (cleanStage4_le _) (le_trans (cleanStage3_le _)
      (le_trans (cleanStage2_le _) (cleanStage1_le _)))

/-! ## Claims -/

/--
C10.  For every query string that is empty or consists only of
whitespace, `search_news` returns `None` and `get_all_news` returns the
empty list, in both cases without issuing any API request (the request
counter stays 0).
-/
theorem c10_blank_query_no_request {Item : Type}
    (oracle : SearchParams → Option (SearchResp Item))
    (fuel display start maxResults : Nat) (sortKey query : String)
    (dateFrom dateTo : Option String) (h : pyStrip query.data = []) :
    search_news oracle query display start sortKey dateFrom dateTo = (none, 0) ∧
    get_all_news oracle fuel query maxResults sortKey dateFrom dateTo = ([], 0) := by
  refine ⟨?_, ?_⟩ <;> simp [search_news, get_all_news, h]

theorem c10_blank_query_no_request_witness :
    search_news (fun _ => (none : Option (SearchResp Unit))) "   " 100 1 "date"
        none none = (none, 0) ∧
    get_all_news (fun _ => (none : Option (SearchResp Unit))) 5 "   " 10 "date"
        none none = ([], 0) :=
  c10_blank_query_no_request (fun _ => none) 5 100 1 10 "date" "   " none none
    (by decide)

/--
C8.  When no sentiment backend is configured or available (no OpenAI
client, no classifier, no fine-tuned model), `analyze` returns exactly
the fixed neutral default `{'보통', 0.5, 50, 'static/2.png'}`; and any
internal exception during analysis (the fine-tuned model or the pipeline
classifier raising) yields this same default.
-/
theorem c8_no_backend_neutral_default :
    (∀ (a : Analyzer) (text : List Char), a.openai_client = none →
      a.classifier = none → a.use_finetuned_model = false →
      analyze a text = defaultResult) ∧
    (∀ (uo : Bool) (text : List Char)
      (cls : Option (List Char → Except Unit (String × ℚ))),
      analyze ⟨uo, none, true, some (fun _ => .error ()), cls⟩ text
        = defaultResult) ∧
    (∀ (uo : Bool) (text : List Char),
      analyze ⟨uo, none, false, none, some (fun _ => .error ())⟩ text
        = defaultResult) := by
  refine ⟨?_, ?_, ?_⟩
  · rintro ⟨uo, oc, uf, ft, cl⟩ text h1 h2 h3
    cases h1; cases h2; cases h3
    cases uo <;> rfl
  · intro uo text cls
    cases uo <;> simp [analyze]
  · intro uo text
    cases uo <;> rfl

theorem c8_no_backend_neutral_default_witness :
    analyze ⟨false, none, false, none, none⟩ "연합뉴스".data = defaultResult :=
  c8_no_backend_neutral_default.1 ⟨false, none, false, none, none⟩
    "연합뉴스".data rfl rfl rfl

/--
C6.  The language filter classifies an item as English if and only if
the joined title/description/text contains no Korean character AND the
ratio of Latin letters to non-space characters exceeds 0.7 (any Korean
character forces "not English"); in particular
`title = "Samsung posts record profit in Q3"` with empty description
and text is English, and `title = "삼성전자 3분기 기록적 실적"` is not.
-/
theorem c6_english_filter_iff :
    (∀ title desc text : List Char,
      is_english_article title desc text = isEnglishSpec title desc text) ∧
    is_english_article "Samsung posts record profit in Q3".data [] [] = true ∧
    is_english_article "삼성전자 3분기 기록적 실적".data [] [] = false := by
  refine ⟨fun t d x => is_english_core_eq _, ?_, ?_⟩
  · with_unfolding_all rfl
  · with_unfolding_all rfl

/--
C4 (code bug).  The spec's invariant says label and image key are a
fixed 1:1 mapping with neutral → `'static/2.png'`; but in the
default-pipeline branch, when the classifier label is positive (or
negative) and the adjusted score lands strictly between 0.3 and 0.7, the
code assigns the neutral label the image `'temp/2.png'`
(`sentiment_analyzer.py`, lines 693 and 705) — inconsistent with every
other neutral branch of the same function (lines 307, 327, 619, 730,
762).  Concretely: classifier output `('positive', 0.5)` on the empty
text yields label `'보통'` with image `'temp/2.png'`.
-/
theorem c4_neutral_image_mismatch :
    analyze ⟨false, none, false, none, some (fun _ => .ok ("positive", 1 / 2))⟩ []
      = { label := "보통", score := 1 / 2, temperature := 50,
          image_path := "temp/2.png" } ∧
    "temp/2.png" ≠ "static/2.png" :=
  ⟨by with_unfolding_all rfl, by decide⟩

/--
C9.  With `sort_by == 'view'` the result list is sorted by view count in
descending order with a stable sort: records with equal view counts keep
their original relative order; in particular view counts `[5, 20, 5, 1]`
yield `[20, 5, 5, 1]` with the two tied 5s in original order.
-/
theorem c9_view_sort_stable :
    (∀ l : List NewsItem,
      (sort_results_by_view l).Sorted viewOrder ∧
      ∀ k : Nat, (sort_results_by_view l).filter (fun x => viewKey x == k)
        = l.filter (fun x => viewKey x == k)) ∧
    sort_results_by_view
        [⟨"a", some 5, ""⟩, ⟨"b", some 20, ""⟩, ⟨"c", some 5, ""⟩,
         ⟨"d", some 1, ""⟩]
      = [⟨"b", some 20, ""⟩, ⟨"a", some 5, ""⟩, ⟨"c", some 5, ""⟩,
         ⟨"d", some 1, ""⟩] := by
  constructor
  · intro l
    refine ⟨List.sorted_insertionSort viewOrder l, ?_⟩
    intro k
    have hpair : (l.filter (fun x => viewKey x == k)).Pairwise viewOrder := by
      apply List.pairwise_of_forall_mem_list
      intro a ha b hb
      rw [List.mem_filter] at ha hb
      have ha2 : viewKey a = k := by simpa using ha.2
      have hb2 : viewKey b = k := by simpa using hb.2
      unfold viewOrder
      omega
    have hsub : List.Sublist (l.filter (fun x => viewKey x == k))
        (sort_results_by_view l) :=
      List.sublist_insertionSort hpair (List.filter_sublist l)
    have hsub2 : List.Sublist (l.filter (fun x => viewKey x == k))
        ((sort_results_by_view l).filter (fun x => viewKey x == k)) := by
      have h2 := hsub.filter (fun x => viewKey x == k)
      rwa [List.filter_filter, (by funext x; simp : (fun x =>
        (viewKey x == k) && (viewKey x == k)) = fun x => viewKey x == k)] at h2
    have hperm : List.Perm
        ((sort_results_by_view l).filter (fun x => viewKey x == k))
        (l.filter (fun x => viewKey x == k)) :=
      (List.perm_insertionSort viewOrder l).filter _
    exact (hsub2.eq_of_length hperm.length_eq.symm).symm
  · decide

set_option maxRecDepth 4000 in
/--
C5 (amended).  The truncation-fallback summarizer cuts at `max_length`
characters, trims back to the last sentence-ending punctuation past the
50% mark, else to the last whitespace past the 70% mark, else hard-cuts
and appends an ellipsis; the output length is at most `max_length + 3`
(not `max_length + 1`), and with `max_length = 50` the input
`"가" * 200 + "."` yields exactly `"가" * 50 + "..."` (53 characters,
ending in the ellipsis).
-/
theorem c5_fallback_length_bound :
    (∀ (text : List Char) (maxLength : Nat),
      (fallback_summarize text maxLength).length ≤ maxLength + 3) ∧
    fallback_summarize (List.replicate 200 '가' ++ ['.']) 50
      = List.replicate 50 '가' ++ ellipsis := by
  constructor
  · intro text maxLength
    have h2 : ∀ s2 : List Char, (fallback_space s2).length ≤ s2.length + 3 := by
      intro s2
      unfold fallback_space
      split_ifs <;> simp [List.length_take, List.length_append, ellipsis]
    have h1 : ∀ (s : List Char) (m : Nat),
        (fallback_inner s m).length ≤ s.length + 3 := by
      intro s m
      unfold fallback_inner
      split_ifs with hp hs
      · simp [List.length_take]
      · have := h2 (s.take (rfindCh s ' ').toNat)
        have ht : (s.take (rfindCh s ' ').toNat).length ≤ s.length := by
          simp [List.length_take]
        omega
      · simp [List.length_append, ellipsis]
    unfold fallback_summarize
    split_ifs with h0
    · omega
    · have := h1 ((pyStrip text).take maxLength) maxLength
      have ht : ((pyStrip text).take maxLength).length ≤ maxLength := by
        simp [List.length_take]
      omega
  · with_unfolding_all rfl

set_option maxRecDepth 4000 in
/--
C5 (counterexample).  The claim "with `max_length=50` the input
`"가"*200 + "."` yields an output of at most 51 characters" is false:
the output has 53 characters (the hard cut appends a three-character
ellipsis).
-/
theorem c5_counterexample :
    (fallback_summarize (List.replicate 200 '가' ++ ['.']) 50).length = 53 ∧
    ¬((fallback_summarize (List.replicate 200 '가' ++ ['.']) 50).length ≤ 51) := by
  have h : fallback_summarize (List.replicate 200 '가' ++ ['.']) 50
      = List.replicate 50 '가' ++ ellipsis := by with_unfolding_all rfl
  rw [h]
  simp [ellipsis]

/--
C1 (amended).  For every `SentimentResult` of `analyze`, the temperature
equals `int(s * 100)` (truncation toward zero, not `round`), clamped to
`[0, 100]`, where `s` is the branch's temperature-basis score
(`temp_basis`): the returned `score` field itself in the OpenAI,
default, strong-negative-override and default-pipeline branches, but the
keyword-ADJUSTED score — not the returned `score` field — in the
fine-tuned keyword branch.
-/
theorem c1_temperature_is_truncated_basis (a : Analyzer) (text : List Char) :
    (analyze a text).temperature = clampZ 0 100 (pyTrunc (temp_basis a text * 100)) := by
  have hdef : defaultResult.temperature
      = clampZ 0 100 (pyTrunc ((1 : ℚ) / 2 * 100)) := by
    have h1 : ((1 : ℚ) / 2 * 100) = ((50 : ℤ) : ℚ) := by norm_num
    simp only [defaultResult, clampZ, pyTrunc, h1]
    norm_num [Int.floor_intCast]
  obtain ⟨uo, oc, uf, ft, cl⟩ := a
  unfold analyze temp_basis
  cases hoc : (if uo then oc else none) with
  | some f => rfl
  | none =>
    cases uf with
    | false =>
      cases cl with
      | none => exact hdef
      | some f =>
        cases hr : f (truncate2000 text) with
        | error e => simp only [hr]; exact hdef
        | ok r => simp only [hr]; rfl
    | true =>
      cases ft with
      | none =>
        cases cl with
        | none => exact hdef
        | some f =>
          cases hr : f (truncate2000 text) with
          | error e => simp only [hr]; exact hdef
          | ok r => simp only [hr]; rfl
      | some m =>
        cases cl with
        | none =>
          cases hr : m (truncate2000 text) with
          | error e => simp only [hr]; exact hdef
          | ok p =>
            simp only [hr]
            unfold finetuned_branch
            by_cases hs : 0 < ft_strong_count (pyLower (truncate2000 text))
            · simp [hs]
              exact ftStrong_temp _
            · simp [hs]
        | some g =>
          cases hr : m (truncate2000 text) with
          | error e => simp only [hr]; exact hdef
          | ok p =>
            simp only [hr]
            unfold finetuned_branch
            by_cases hs : 0 < ft_strong_count (pyLower (truncate2000 text))
            · simp [hs]
              exact ftStrong_temp _
            · simp [hs]

/--
C1 (counterexample).  The claim `temperature == clamp(round(score*100),
0, 100)` fails: with the fine-tuned backend returning probabilities
`(0, 1, 0)` on the text `"성공"` (one positive keyword), the result has
`score = 0.5` but `temperature = 60` (computed from the keyword-adjusted
score 0.6), while `clamp(round(0.5*100)) = 50`.
-/
theorem c1_round_invariant_fails :
    (analyze ⟨false, none, true, some (fun _ => .ok (0, 1, 0)), none⟩
        "성공".data).temperature
      ≠ clampZ 0 100
          (round ((analyze ⟨false, none, true, some (fun _ => .ok (0, 1, 0)), none⟩
            "성공".data).score * 100)) := by
  have h : analyze ⟨false, none, true, some (fun _ => .ok (0, 1, 0)), none⟩
      "성공".data = ⟨"보통", 1 / 2, 60, "static/2.png"⟩ := by
    with_unfolding_all rfl
  rw [h]
  have h1 : ((1 : ℚ) / 2 * 100) = ((50 : ℤ) : ℚ) := by norm_num
  simp only [h1, round_intCast, clampZ]
  decide

/--
C3 (amended).  In the fine-tuned path, for every input whose
ANALYSIS text (the input truncated to `text[:1500] + " " + text[-500:]`
when longer than 2000 characters) contains at least one strong-negative
keyword, `analyze` returns label `'부정적'` with score
`max(0, 0.2 - 0.1 * matchCount)` and temperature ≤ 20, regardless of the
classifier probabilities, short-circuiting all keyword-bias and
relabeling logic.
-/
theorem c3_strong_override_on_analysis_text (pn pu pp : ℚ)
    (cls : Option (List Char → Except Unit (String × ℚ))) (text : List Char)
    (h : 0 < ft_strong_count (pyLower (truncate2000 text))) :
    analyze ⟨false, none, true, some (fun _ => .ok (pn, pu, pp)), cls⟩ text
        = ftStrongResult (ft_strong_count (pyLower (truncate2000 text))) ∧
    (analyze ⟨false, none, true, some (fun _ => .ok (pn, pu, pp)), cls⟩ text).label
        = "부정적" ∧
    (analyze ⟨false, none, true, some (fun _ => .ok (pn, pu, pp)), cls⟩ text).score
        = max 0 (1 / 5
            - (ft_strong_count (pyLower (truncate2000 text)) : ℚ) * (1 / 10)) ∧
    (analyze ⟨false, none, true, some (fun _ => .ok (pn, pu, pp)), cls⟩
        text).temperature ≤ 20 := by
  have ha : analyze ⟨false, none, true, some (fun _ => .ok (pn, pu, pp)), cls⟩ text
      = finetuned_branch pn pu pp (truncate2000 text) := by
    simp [analyze]
  rw [ha, finetuned_branch_strong h]
  refine ⟨rfl, rfl, rfl, ?_⟩
  simp only [ftStrongResult, clampZ]
  omega

theorem c3_strong_override_on_analysis_text_witness :
    (analyze ⟨false, none, true, some (fun _ => .ok (9 / 10, 0, 1 / 10)), none⟩
        "교통사고로 숨졌다".data).label = "부정적" ∧
    (analyze ⟨false, none, true, some (fun _ => .ok (9 / 10, 0, 1 / 10)), none⟩
        "교통사고로 숨졌다".data).temperature ≤ 20 :=
  ⟨(c3_strong_override_on_analysis_text (9 / 10) 0 (1 / 10) none
      "교통사고로 숨졌다".data (by decide)).2.1,
   (c3_strong_override_on_analysis_text (9 / 10) 0 (1 / 10) none
      "교통사고로 숨졌다".data (by decide)).2.2.2⟩

/--
C3 (counterexample).  The claim quantifies over every input text
containing a strong-negative keyword, but the override only inspects the
truncated analysis text: a 2009-character article whose only
"교통사고로 숨졌다" sits inside the dropped middle region (past
character 1500, before the last 500) escapes the override entirely —
with classifier probabilities (0, 0, 1) the result is `'긍정적'` with
temperature 100, not negative with temperature ≤ 20.
-/
theorem c3_truncation_escapes_override :
    containsSub "교통사고로 숨졌다".data c3BigText = true ∧
    (analyze ⟨false, none, true, some (fun _ => .ok (0, 0, 1)), none⟩
        c3BigText).label = "긍정적" ∧
    (analyze ⟨false, none, true, some (fun _ => .ok (0, 0, 1)), none⟩
        c3BigText).temperature = 100 := by
  have hcontain : containsSub "교통사고로 숨졌다".data c3BigText = true := by
    unfold c3BigText
    exact containsSub_append_left _ (containsSub_here _ _)
  have h9 : ("교통사고로 숨졌다".data).length = 9 := rfl
  have hlen : c3BigText.length = 2009 := by
    unfold c3BigText
    rw [List.length_append, List.length_append, List.length_replicate,
      List.length_replicate, h9]
  have htake : c3BigText.take 1500 = List.replicate 1500 '가' := by
    unfold c3BigText
    exact List.take_left' (by rw [List.length_replicate])
  have hdrop : c3BigText.drop 1509 = List.replicate 500 '가' := by
    unfold c3BigText
    rw [← List.append_assoc]
    exact List.drop_left' (by rw [List.length_append, List.length_replicate, h9])
  have htfa : truncate2000 c3BigText
      = List.replicate 1500 '가' ++ ' ' :: List.replicate 500 '가' := by
    unfold truncate2000
    rw [pyLen_eq, hlen]
    norm_num
    rw [htake, hdrop]
  set tfa := List.replicate 1500 '가' ++ ' ' :: List.replicate 500 '가'
    with htfadef
  have hh : ∀ x ∈ tfa, x = '가' ∨ x = ' ' := by
    intro x hx
    rw [htfadef] at hx
    rcases List.mem_append.mp hx with h1 | h1
    · exact Or.inl (List.eq_of_mem_replicate h1)
    · rcases List.mem_cons.mp h1 with rfl | h2
      · exact Or.inr rfl
      · exact Or.inl (List.eq_of_mem_replicate h2)
  have hlow : pyLower tfa = tfa := by
    rw [htfadef]
    unfold pyLower
    rw [List.map_append, List.map_cons, List.map_replicate, List.map_replicate,
      show Char.toLower '가' = '가' from rfl, show Char.toLower ' ' = ' ' from rfl]
  have hpos : ft_positive_count tfa = 0 := countContains_zero_of hh (by decide)
  have hneg : ft_negative_count_raw tfa = 0 := countContains_zero_of hh (by decide)
  have hstrong : ft_strong_count tfa = 0 := countContains_zero_of hh (by decide)
  have hctx : ft_context_count tfa = 0 := countSearch_zero_of hh (by decide)
  have ha : analyze ⟨false, none, true, some (fun _ => .ok (0, 0, 1)), none⟩
      c3BigText = finetuned_branch 0 0 1 tfa := by
    simp [analyze, htfa]
  have hfb : finetuned_branch 0 0 1 tfa
      = ⟨"긍정적", 1, 100, "static/3.png"⟩ := by
    simp only [finetuned_branch, hlow, hpos, hneg, hstrong, hctx]
    norm_num [clampQ01, ftKeywordBias, ftDecide, argmax3, labelMap,
      imageForLabel, clampZ, pyTrunc]
  refine ⟨hcontain, ?_, ?_⟩ <;> rw [ha, hfb]

/-- C2 (corrected): the cleaner is not idempotent, but it never grows
the text — each application is length non-increasing, so in particular
a second pass shrinks (or preserves) the first pass's output. -/
theorem c2_clean_length_monotone (x : List Char) :
    (clean_article_text (clean_article_text x)).length ≤ (clean_article_text x).length ∧
    (clean_article_text x).length ≤ x.length :=
  ⟨clean_article_text_le (clean_article_text x), clean_article_text_le x⟩

set_option maxRecDepth 2000 in
/-- C2 (counterexample to the claim): on `"가나 [포토:abc] 다라"` one pass
of the cleaner removes the bracketed caption and yields `"가나 다라"`, but
a second pass drops that five-character line entirely (it is shorter
than 10 characters with no run of three Hangul syllables), so
`clean(clean(x)) ≠ clean(x)`. -/
theorem c2_not_idempotent :
    clean_article_text c2Text = "가나 다라".data ∧
    clean_article_text (clean_article_text c2Text) = [] ∧
    clean_article_text (clean_article_text c2Text) ≠ clean_article_text c2Text := by
  refine ⟨by decide, by decide, by decide⟩

/-- C7 (corrected): the "fall back to pre-cleaning lines longer than 20
characters" behaviour belongs to `_summarize_with_kosum`, not to
`_clean_article_text`: whenever the kosum line-selection loop keeps no
line, the text handed to the summarizer is the newline-join of the
stripped pre-substitution lines longer than 20 characters. -/
theorem c7_kosum_fallback (text : List Char)
    (h : kosumLoop false (splitNL (kosumPre text)) = []) :
    kosum_text_to_summarize text = joinNL (kosumFallbackLines (kosumPre text)) := by
  simp [kosum_text_to_summarize, h]

set_option maxRecDepth 2000 in
theorem c7_kosum_fallback_witness :
    kosumLoop false (splitNL (kosumPre c7Text)) = [] ∧
    kosum_text_to_summarize c7Text = joinNL (kosumFallbackLines (kosumPre c7Text)) :=
  ⟨by decide, c7_kosum_fallback c7Text (by decide)⟩

set_option maxRecDepth 2000 in
/-- C7 (counterexample to the claim as stated): `_clean_article_text`
itself has no such fallback — on a single 26-character content line that
merely begins with `댓글` it removes every line and returns the empty
string, even though the pre-cleaning text has a stripped line longer
than 20 characters. -/
theorem c7_cleaner_drops_all :
    clean_article_text c7Text = [] ∧
    kosumFallbackLines c7Text = [c7Text] ∧
    c7Text ≠ [] := by
  refine ⟨by decide, by decide, by decide⟩

end NewsTemp
